import Mathlib

/-!
Verification development for the GitHub Pages troubleshooting system
(scripts/troubleshooting): a shallow embedding of the diagnostic result
model (models.py), the component execution envelope (base.py), the
session orchestrator (orchestrator.py) and the workflow rule engine
(diagnostic/workflow_inspector.py), together with theorems about the
properties the design documents.

Modelling conventions:
- Wall-clock timestamps are abstracted as natural numbers passed in by
  the caller; every result produced during one call shares the `now`
  argument of that call (the source calls datetime.now() per result,
  but no checked property depends on distinct timestamps).
- Python dicts are modelled as insertion-ordered association lists with
  first-occurrence lookup; dict assignment and dict.update are modelled
  by `dictInsert` and `dictUpdate`, which replace in place on an
  existing key and append otherwise, exactly like CPython dicts.
- Python string operations are modelled over `List Char`:
  `pyStrLt` is code-point lexicographic comparison (Python `<` on str),
  `lowerStr` is str.lower restricted to ASCII letters, `strContains`
  is the `in` substring test, and `rsplitAtLast` is str.rsplit(sep, 1).
- Exceptions are modelled with `Except PyExn`; a `PyExn` carries the
  exception type name and message. Fallible source functions return
  `Except`, and the execution envelope converts an error into a FAIL
  result exactly as base.py does.
- YAML values are modelled by the shapes the inspector distinguishes:
  a trigger declaration is absent, null, a string, a string list, or a
  mapping (`TriggerVal`), and a single trigger configuration is a
  mapping carrying a branch list or a non-mapping value
  (`TriggerConf`). Branch filters are modelled as string lists.
- The filesystem is abstracted by `RepoFS`: whether the workflows
  directory exists, its path, and the outcome of enumerating its
  .yml/.yaml files (both glob passes concatenated); each enumerated
  file carries its name and its parse outcome (yaml.safe_load result).
-/

/-! ## Python-style string helpers -/

/-- Code-point lexicographic comparison of character lists, as Python
compares strings with the < operator. -/
def pyStrLtAux : List Char → List Char → Bool
  | [], [] => false
  | [], _ :: _ => true
  | _ :: _, [] => false
  | a :: as, b :: bs =>
    if a.toNat < b.toNat then true
    else if b.toNat < a.toNat then false
    else pyStrLtAux as bs

/-- Python string comparison a < b. -/
def pyStrLt (a b : String) : Bool := pyStrLtAux a.data b.data

/-- ASCII lowercase of one character, as str.lower acts on ASCII. -/
def lowerChar (c : Char) : Char :=
  if 65 ≤ c.toNat ∧ c.toNat ≤ 90 then Char.ofNat (c.toNat + 32) else c

/-- ASCII lowercase of a string (str.lower on ASCII input). -/
def lowerStr (s : String) : String := ⟨s.data.map lowerChar⟩

/-- Python substring membership test: needle in hay. -/
def strContains (hay needle : String) : Bool := decide (needle.data <:+: hay.data)

/-- Python str.startswith test. -/
def pyStartsWith (s p : String) : Bool := decide (p.data <+: s.data)

/-- Split a character list at the LAST occurrence of c, as Python
str.rsplit(c, 1); none when c does not occur. -/
def rsplitAtLast (c : Char) : List Char → Option (List Char × List Char)
  | [] => none
  | x :: xs =>
    match rsplitAtLast c xs with
    | some (a, b) => some (x :: a, b)
    | none => if x == c then some ([], xs) else none

/-- Python repr of a list of strings, used by f-strings interpolating a
list, e.g. a branch filter. -/
def pyListRepr (l : List String) : String :=
  "[" ++ String.intercalate ", " (l.map fun s => "\x27" ++ s ++ "\x27") ++ "]"

/-! ## Python-dict association lists -/

/-- Dict assignment d[k] = v: replace in place when the key exists,
append otherwise. -/
def dictInsert {α : Type} (m : List (String × α)) (k : String) (v : α) :
    List (String × α) :=
  if m.any (fun p => p.1 == k) then
    m.map (fun p => if p.1 == k then (k, v) else p)
  else m ++ [(k, v)]

/-- Dict.update: assign every entry of the patch in order. -/
def dictUpdate {α : Type} (m patch : List (String × α)) : List (String × α) :=
  patch.foldl (fun acc p => dictInsert acc p.1 p.2) m

/-- The value of the LAST entry carrying a key, if any. -/
def lastAssoc {α : Type} (k : String) (m : List (String × α)) : Option α :=
  m.reverse.findSome? fun p => if p.1 == k then some p.2 else none

/-! ## Result model (models.py) -/

/-- TestStatus enumeration. -/
inductive TestStatus where
  | pass
  | fail
  | warning
  | running
  | completed
  | failed
deriving DecidableEq

/-- Severity enumeration. -/
inductive Severity where
  | low
  | medium
  | high
  | critical
deriving DecidableEq

/-- One incorrect-permission record, as built by
_validate_workflow_permissions. -/
structure PermIssue where
  permission : String
  expected : String
  actual : String
deriving DecidableEq

/-- One outdated-action record, as built by _validate_workflow_steps. -/
structure ActionIssue where
  action : String
  used : String
  minimum : String
  current : String
deriving DecidableEq

/-- Values stored in result metadata (the open-ended kwargs of
_create_result), by the shapes the source actually stores. -/
inductive MetaVal where
  | s (v : String)
  | n (v : Nat)
  | b (v : Bool)
  | strs (v : List String)
  | pairs (v : List (String × String))
  | perms (v : List PermIssue)
  | acts (v : List ActionIssue)
deriving DecidableEq

/-- DiagnosticResult dataclass. -/
structure DiagnosticResult where
  timestamp : Nat
  test_name : String
  status : TestStatus
  message : String
  details : String
  suggested_fix : Option String
  severity : Severity
  metadata : List (String × MetaVal)
deriving DecidableEq

/-- The projection checked by the idempotence property: check name,
status and severity of a result. -/
def resultTriple (r : DiagnosticResult) : String × TestStatus × Severity :=
  (r.test_name, r.status, r.severity)

/-- A raised Python exception: its type name and its message. -/
structure PyExn where
  typeName : String
  msg : String
deriving DecidableEq

/-- DiagnosticSession, restricted to the fields the orchestrator and
the checked claims touch (test suites, repair actions and the
repository status are never used by the core). -/
structure SessionState where
  session_id : String
  start_time : Nat
  end_time : Option Nat
  diagnostic_results : List DiagnosticResult
  metadata : List (String × String)
deriving DecidableEq

/-! ## Component execution envelope (base.py) -/

/-- The mutable state of a DiagnosticComponent. -/
structure ComponentState where
  name : String
  results : List DiagnosticResult
  start_time : Option Nat
  end_time : Option Nat
deriving DecidableEq

/-- The FAIL result synthesized by DiagnosticComponent.execute when
run_diagnostics raises. -/
def executionErrorResult (name : String) (now : Nat) (e : PyExn) : DiagnosticResult :=
  { timestamp := now
    test_name := name ++ "_execution"
    status := TestStatus.fail
    message := "Component execution failed: " ++ e.msg
    details := "Exception occurred while running " ++ name
    suggested_fix := none
    severity := Severity.high
    metadata := [("exception_type", MetaVal.s e.typeName)] }

/-- DiagnosticComponent.execute: record the start time, reset results,
run the diagnostics, convert an uncaught exception into a single FAIL
result, and always record the end time. The run_diagnostics call is
abstracted by its outcome. -/
def componentExecute (c : ComponentState) (tStart tErr tEnd : Nat)
    (run : Except PyExn (List DiagnosticResult)) : ComponentState :=
  let c1 : ComponentState := { c with start_time := some tStart, results := [] }
  let c2 : ComponentState :=
    match run with
    | Except.ok rs => { c1 with results := rs }
    | Except.error e => { c1 with results := [executionErrorResult c.name tErr e] }
  { c2 with end_time := some tEnd }

/-! ## Orchestrator (orchestrator.py) -/

/-- One registered component as the orchestrator observes it: its name,
the timestamp used if a defensive error result must be created, and the
outcome of its execute call. -/
structure CompRun where
  name : String
  tErr : Nat
  outcome : Except PyExn (List DiagnosticResult)

/-- The FAIL result the orchestrator synthesizes when a component
execute call itself raises. -/
def orchestratorErrorResult (name : String) (now : Nat) (e : PyExn) : DiagnosticResult :=
  { timestamp := now
    test_name := name ++ "_execution"
    status := TestStatus.fail
    message := "Component execution failed: " ++ e.msg
    details := "Exception in " ++ name
    suggested_fix := none
    severity := Severity.high
    metadata := [] }

/-- The results one component contributes to the session: its returned
list on success, a single synthetic error result on failure. -/
def compContribution (cr : CompRun) : List DiagnosticResult :=
  match cr.outcome with
  | Except.ok rs => rs
  | Except.error e => [orchestratorErrorResult cr.name cr.tErr e]

/-- One iteration of the orchestrator loop: append the contribution of
the component to the session. -/
def orchRunStep (sess : SessionState) (cr : CompRun) : SessionState :=
  { sess with diagnostic_results := sess.diagnostic_results ++ compContribution cr }

/-- DiagnosticOrchestrator.run_diagnostics: fails when no session is
active, otherwise runs every registered component in order, appends
each contribution to the session, and finally sets the end time. -/
def runDiagnosticsOrch (cur : Option SessionState) (comps : List CompRun)
    (tEnd : Nat) : Except String SessionState :=
  match cur with
  | none => Except.error "No active session. Call start_session() first."
  | some sess => Except.ok { comps.foldl orchRunStep sess with end_time := some tEnd }

/-! ## Workflow rule engine (diagnostic/workflow_inspector.py) -/

/-- A workflow step: the action reference of its uses field, with the
empty string when the field is absent (step.get with default). -/
structure WStep where
  uses : String
deriving DecidableEq

/-- The configuration attached to one trigger name: a mapping (carrying
its branch filter, empty when no branches key is present) or any
non-mapping value such as null. -/
inductive TriggerConf where
  | conf (branches : List String)
  | other
deriving DecidableEq

/-- The value of the trigger declaration field: null, a single trigger
name, a list of trigger names, or a mapping from trigger name to
configuration. -/
inductive TriggerVal where
  | null
  | str (s : String)
  | list (ts : List String)
  | map (m : List (String × TriggerConf))
deriving DecidableEq

/-- A workflow job: its own permission mapping and its ordered steps. -/
structure WJob where
  permissions : List (String × String)
  steps : List WStep
deriving DecidableEq

/-- A parsed workflow file: workflow-scope permissions, the value of
the on key and of the boolean True key (the YAML quirk fallback), and
the named jobs in mapping order. -/
structure Workflow where
  permissions : List (String × String)
  onTrigger : Option TriggerVal
  boolTrigger : Option TriggerVal
  jobs : List (String × WJob)
deriving DecidableEq

/-- REQUIRED_PERMISSIONS class constant, in dict iteration order. -/
def REQUIRED_PERMISSIONS : List (String × String) :=
  [("contents", "read"), ("pages", "write"), ("id-token", "write")]

/-- PAGES_ACTIONS class constant: action name, min_version, current. -/
def PAGES_ACTIONS : List (String × String × String) :=
  [("actions/checkout", "v3", "v4"),
   ("actions/configure-pages", "v3", "v4"),
   ("actions/upload-pages-artifact", "v2", "v3"),
   ("actions/deploy-pages", "v2", "v4")]

/-- The two essential actions checked by _validate_workflow_steps. -/
def ESSENTIAL_ACTIONS : List String := ["actions/checkout", "actions/deploy-pages"]

/-! ### Permissions pass -/

/-- Whether any step of the job uses a reference starting with a known
Pages action name. -/
def jobHasPagesActions (j : WJob) : Bool :=
  j.steps.any fun st => PAGES_ACTIONS.any fun a => pyStartsWith st.uses a.1

/-- Whether a job is treated as publish-related by the permissions
pass: it uses a known Pages action, or its name contains pages or
deploy after lowercasing. -/
def isPagesRelatedJob (name : String) (j : WJob) : Bool :=
  jobHasPagesActions j || strContains (lowerStr name) "pages" ||
    strContains (lowerStr name) "deploy"

/-- The publish-related jobs of a workflow, in job-mapping order. -/
def pagesJobs (w : Workflow) : List (String × WJob) :=
  w.jobs.filter fun p => isPagesRelatedJob p.1 p.2

/-- The merged permission view: workflow-scope permissions updated, in
iteration order, with the permissions of every publish-related job. -/
def mergedPermissions (w : Workflow) : List (String × String) :=
  (pagesJobs w).foldl (fun acc p => dictUpdate acc p.2.permissions) w.permissions

/-- Required permission names absent from the merged view. -/
def missingPermissions (w : Workflow) : List String :=
  REQUIRED_PERMISSIONS.filterMap fun p =>
    if (List.lookup p.1 (mergedPermissions w)).isNone then some p.1 else none

/-- Required permissions present in the merged view with a different
value. -/
def incorrectPermissions (w : Workflow) : List PermIssue :=
  REQUIRED_PERMISSIONS.filterMap fun p =>
    match List.lookup p.1 (mergedPermissions w) with
    | none => none
    | some v => if v ≠ p.2 then some ⟨p.1, p.2, v⟩ else none

/-- The detail line for one incorrect permission. -/
def permissionIssueText (p : PermIssue) : String :=
  p.permission ++ ": expected \x27" ++ p.expected ++ "\x27, got \x27" ++ p.actual ++ "\x27"

/-- The details field of a failing permissions result. -/
def permissionsDetails (missing : List String) (incorrect : List PermIssue) : String :=
  String.intercalate "; "
    ((if missing.isEmpty then []
      else ["Missing permissions: " ++ String.intercalate ", " missing]) ++
     incorrect.map permissionIssueText)

/-- The FAIL result of the permissions pass. -/
def permsFailResult (now : Nat) (file : String) (missing : List String)
    (incorrect : List PermIssue) : DiagnosticResult :=
  { timestamp := now
    test_name := "workflow_permissions_" ++ file
    status := TestStatus.fail
    message := "Workflow permissions are incomplete or incorrect"
    details := permissionsDetails missing incorrect
    suggested_fix := some "Add required permissions: contents: read, pages: write, id-token: write"
    severity := Severity.high
    metadata := [("file", MetaVal.s file), ("missing_permissions", MetaVal.strs missing),
                 ("incorrect_permissions", MetaVal.perms incorrect)] }

/-- The PASS result of the permissions pass. -/
def permsPassResult (now : Nat) (file : String)
    (merged : List (String × String)) : DiagnosticResult :=
  { timestamp := now
    test_name := "workflow_permissions_" ++ file
    status := TestStatus.pass
    message := "All required permissions are correctly configured"
    details := "Found permissions: " ++
      String.intercalate ", " (REQUIRED_PERMISSIONS.map fun p => p.1 ++ ": " ++ p.2)
    suggested_fix := none
    severity := Severity.low
    metadata := [("file", MetaVal.s file), ("permissions", MetaVal.pairs merged)] }

/-- _validate_workflow_permissions: one result per file. -/
def validateWorkflowPermissions (now : Nat) (file : String) (w : Workflow) :
    List DiagnosticResult :=
  let missing := missingPermissions w
  let incorrect := incorrectPermissions w
  if missing.isEmpty && incorrect.isEmpty then [permsPassResult now file (mergedPermissions w)]
  else [permsFailResult now file missing incorrect]

/-! ### Triggers pass -/

/-- The trigger value actually examined: the on field, falling back to
the boolean True key when the on field is absent, null or an empty
mapping. -/
def effectiveTriggers (w : Workflow) : TriggerVal :=
  match w.onTrigger.getD (TriggerVal.map []) with
  | TriggerVal.null => w.boolTrigger.getD (TriggerVal.map [])
  | TriggerVal.map [] => w.boolTrigger.getD (TriggerVal.map [])
  | t => t

/-- Coerce the trigger declaration to a mapping: a single string
becomes a one-entry mapping, a list of strings a mapping with empty
configurations, a mapping is kept. A null value survives only when the
fallback key itself holds null, on which the source would raise a
TypeError at the membership test; that case yields none. -/
def normalizeTriggers : TriggerVal → Option (List (String × TriggerConf))
  | TriggerVal.null => none
  | TriggerVal.str s => some [(s, TriggerConf.conf [])]
  | TriggerVal.list ts => some (ts.map fun t => (t, TriggerConf.conf []))
  | TriggerVal.map m => some m

/-- Whether the mapping has a push trigger. -/
def hasPushTrigger (trigs : List (String × TriggerConf)) : Bool :=
  (List.lookup "push" trigs).isSome

/-- Whether the mapping has a workflow_dispatch trigger. -/
def hasManualTrigger (trigs : List (String × TriggerConf)) : Bool :=
  (List.lookup "workflow_dispatch" trigs).isSome

/-- The branch filter of the push trigger: its branches list when the
configuration is a mapping, empty otherwise. -/
def pushBranches (trigs : List (String × TriggerConf)) : List String :=
  match List.lookup "push" trigs with
  | some (TriggerConf.conf bs) => bs
  | _ => []

/-- The conventional primary branch names expected in a push filter. -/
def EXPECTED_BRANCHES : List String := ["main", "prod", "master"]

/-- The list of violated trigger rules, in source order. -/
def triggerIssues (trigs : List (String × TriggerConf)) : List String :=
  (if !hasPushTrigger trigs then ["Missing \x27push\x27 trigger"]
   else
     let bs := pushBranches trigs
     if !bs.isEmpty && !(EXPECTED_BRANCHES.any fun b => bs.contains b) then
       ["Push trigger doesn\x27t include main/prod branches. Found: " ++ pyListRepr bs]
     else []) ++
  (if !hasManualTrigger trigs then
     ["Missing \x27workflow_dispatch\x27 trigger for manual execution"]
   else [])

/-- The FAIL result of the triggers pass. -/
def triggersFailResult (now : Nat) (file : String)
    (trigs : List (String × TriggerConf)) (issues : List String) : DiagnosticResult :=
  { timestamp := now
    test_name := "workflow_triggers_" ++ file
    status := TestStatus.fail
    message := "Workflow triggers are not properly configured"
    details := String.intercalate "; " issues
    suggested_fix := some "Add \x27push\x27 trigger for main/prod branches and \x27workflow_dispatch\x27 for manual execution"
    severity := Severity.high
    metadata := [("file", MetaVal.s file), ("triggers", MetaVal.strs (trigs.map Prod.fst)),
                 ("issues", MetaVal.strs issues)] }

/-- The PASS result of the triggers pass. -/
def triggersPassResult (now : Nat) (file : String)
    (trigs : List (String × TriggerConf)) : DiagnosticResult :=
  { timestamp := now
    test_name := "workflow_triggers_" ++ file
    status := TestStatus.pass
    message := "Workflow triggers are properly configured"
    details := "Found triggers: " ++ String.intercalate ", " (trigs.map Prod.fst)
    suggested_fix := none
    severity := Severity.low
    metadata := [("file", MetaVal.s file), ("triggers", MetaVal.strs (trigs.map Prod.fst))] }

/-- _validate_workflow_triggers: one result per file, or the TypeError
the source raises when a null trigger value survives the fallback. -/
def validateWorkflowTriggers (now : Nat) (file : String) (w : Workflow) :
    Except PyExn (List DiagnosticResult) :=
  match normalizeTriggers (effectiveTriggers w) with
  | none => Except.error ⟨"TypeError", "argument of type \x27NoneType\x27 is not iterable"⟩
  | some trigs =>
    let issues := triggerIssues trigs
    if issues.isEmpty then Except.ok [triggersPassResult now file trigs]
    else Except.ok [triggersFailResult now file trigs issues]

/-! ### Steps pass -/

/-- The action-to-version mapping of a job: every step whose uses field
is nonempty and contains an @ contributes its action name and version
tag, later steps overriding earlier ones for the same action. -/
def usedActions (steps : List WStep) : List (String × String) :=
  steps.foldl (fun acc st =>
    if st.uses ≠ "" then
      match rsplitAtLast '@' st.uses.data with
      | some (a, v) => dictInsert acc (String.mk a) (String.mk v)
      | none => acc
    else acc) []

/-- Known Pages actions used at a version tag lexicographically below
the minimum tag of the table. -/
def outdatedActions (used : List (String × String)) : List ActionIssue :=
  PAGES_ACTIONS.filterMap fun a =>
    match List.lookup a.1 used with
    | some uv => if pyStrLt uv a.2.1 then some ⟨a.1, uv, a.2.1, a.2.2⟩ else none
    | none => none

/-- Essential actions absent from the mapping of used actions. -/
def missingEssentialActions (used : List (String × String)) : List String :=
  ESSENTIAL_ACTIONS.filter fun e => (List.lookup e used).isNone

/-- The issue lines of a failing steps result, in source order. -/
def stepsIssues (od : List ActionIssue) (ma : List String) : List String :=
  od.map (fun a => a.action ++ "@" ++ a.used ++ " (should be >= " ++ a.minimum ++ ")") ++
  (if ma.isEmpty then [] else ["Missing essential actions: " ++ String.intercalate ", " ma])

/-- The result of the steps pass for one job. -/
def jobStepsResult (now : Nat) (file jobName : String) (j : WJob) : DiagnosticResult :=
  let used := usedActions j.steps
  let od := outdatedActions used
  let ma := missingEssentialActions used
  if od.isEmpty && ma.isEmpty then
    { timestamp := now
      test_name := "workflow_steps_" ++ file ++ "_" ++ jobName
      status := TestStatus.pass
      message := "Job \x27" ++ jobName ++ "\x27 uses current action versions"
      details := "Actions: " ++ String.intercalate ", " (used.map fun p => p.1 ++ "@" ++ p.2)
      suggested_fix := none
      severity := Severity.low
      metadata := [("file", MetaVal.s file), ("job", MetaVal.s jobName),
                   ("actions", MetaVal.pairs used)] }
  else
    { timestamp := now
      test_name := "workflow_steps_" ++ file ++ "_" ++ jobName
      status := if !od.isEmpty && ma.isEmpty then TestStatus.warning else TestStatus.fail
      message := "Job \x27" ++ jobName ++ "\x27 has action version or configuration issues"
      details := String.intercalate "; " (stepsIssues od ma)
      suggested_fix := some "Update action versions to current releases and add missing essential actions"
      severity := if !od.isEmpty && ma.isEmpty then Severity.medium else Severity.high
      metadata := [("file", MetaVal.s file), ("job", MetaVal.s jobName),
                   ("outdated_actions", MetaVal.acts od), ("missing_actions", MetaVal.strs ma)] }

/-- _validate_workflow_steps: one result per job of the file. -/
def validateWorkflowSteps (now : Nat) (file : String) (w : Workflow) :
    List DiagnosticResult :=
  w.jobs.map fun p => jobStepsResult now file p.1 p.2

/-! ### Deployment-completeness pass -/

/-- The three step-presence flags of one job, folded over its steps in
order; each step sets at most the first of the three substrings it
contains (the source tests them with if/elif). -/
def deployFlagsAux : Bool × Bool × Bool → List WStep → Bool × Bool × Bool
  | f, [] => f
  | (c, u, d), st :: rest =>
    if strContains st.uses "configure-pages" then deployFlagsAux (true, u, d) rest
    else if strContains st.uses "upload-pages-artifact" then deployFlagsAux (c, true, d) rest
    else if strContains st.uses "deploy-pages" then deployFlagsAux (c, u, true) rest
    else deployFlagsAux (c, u, d) rest

/-- The configure-pages, upload-pages-artifact and deploy-pages flags
of a job. -/
def jobDeployFlags (j : WJob) : Bool × Bool × Bool :=
  deployFlagsAux (false, false, false) j.steps

/-- A job counts as a publish job when any of its three flags is set. -/
def jobIsPublish (j : WJob) : Bool :=
  let f := jobDeployFlags j
  f.1 || f.2.1 || f.2.2

/-- The canonical publish steps a job is missing, in source order. -/
def jobMissingSteps (j : WJob) : List String :=
  let f := jobDeployFlags j
  (if !f.1 then ["configure-pages"] else []) ++
  (if !f.2.1 then ["upload-pages-artifact"] else []) ++
  (if !f.2.2 then ["deploy-pages"] else [])

/-- The per-job issue lines of the deployment pass: one line for every
publish job missing at least one canonical step. -/
def deploymentIssues (jobs : List (String × WJob)) : List String :=
  jobs.filterMap fun p =>
    let f := jobDeployFlags p.2
    if f.1 || f.2.1 || f.2.2 then
      if f.1 && f.2.1 && f.2.2 then none
      else some ("Job \x27" ++ p.1 ++ "\x27 missing steps: " ++
                 String.intercalate ", " (jobMissingSteps p.2))
    else none

/-- Whether any job of the file is a publish job. -/
def hasPagesDeployment (jobs : List (String × WJob)) : Bool :=
  jobs.any fun p => jobIsPublish p.2

/-- The FAIL/CRITICAL result when no job publishes. -/
def deployNoneResult (now : Nat) (file : String) : DiagnosticResult :=
  { timestamp := now
    test_name := "pages_deployment_" ++ file
    status := TestStatus.fail
    message := "No GitHub Pages deployment found in workflow"
    details := "Workflow doesn\x27t contain Pages deployment actions"
    suggested_fix := some "Add GitHub Pages deployment steps (configure-pages, upload-pages-artifact, deploy-pages)"
    severity := Severity.critical
    metadata := [("file", MetaVal.s file)] }

/-- The FAIL/HIGH result when a publish job is incomplete. -/
def deployIncompleteResult (now : Nat) (file : String) (issues : List String) :
    DiagnosticResult :=
  { timestamp := now
    test_name := "pages_deployment_" ++ file
    status := TestStatus.fail
    message := "Incomplete GitHub Pages deployment configuration"
    details := String.intercalate "; " issues
    suggested_fix := some "Complete the Pages deployment workflow with all required steps"
    severity := Severity.high
    metadata := [("file", MetaVal.s file), ("issues", MetaVal.strs issues)] }

/-- The PASS/LOW result when every publish job is complete. -/
def deployCompleteResult (now : Nat) (file : String) : DiagnosticResult :=
  { timestamp := now
    test_name := "pages_deployment_" ++ file
    status := TestStatus.pass
    message := "Complete GitHub Pages deployment workflow found"
    details := "Workflow contains all required Pages deployment steps"
    suggested_fix := none
    severity := Severity.low
    metadata := [("file", MetaVal.s file)] }

/-- _validate_pages_deployment: one result per file. -/
def validatePagesDeployment (now : Nat) (file : String) (w : Workflow) :
    List DiagnosticResult :=
  if !hasPagesDeployment w.jobs then
    [deployNoneResult now file]
  else if !(deploymentIssues w.jobs).isEmpty then
    [deployIncompleteResult now file (deploymentIssues w.jobs)]
  else
    [deployCompleteResult now file]

/-! ### Discovery, parse and the full run -/

/-- The outcome of reading and yaml.safe_load on one file. -/
inductive ParseOutcome where
  | parsed (w : Workflow)
  | empty
  | yamlError (msg : String)
  | readError (msg : String)
deriving DecidableEq

/-- One file of the workflows directory: its name and what parsing it
yields. -/
structure WFile where
  name : String
  content : ParseOutcome
deriving DecidableEq

/-- The filesystem as the inspector observes it: whether the workflows
directory exists, its path string, and the enumeration of its .yml and
.yaml files (the two glob passes concatenated), or the error message of
an enumeration failure. -/
structure RepoFS where
  workflowsDirExists : Bool
  workflowsPath : String
  listing : Except String (List WFile)

/-- The persistent instance state of a WorkflowInspector: the
discovered-file list and the parsed-workflow dict. Neither is reset by
execute, so both survive across calls on the same instance. -/
structure InspectorState where
  workflow_files : List WFile
  parsed_workflows : List (String × Workflow)
deriving DecidableEq

/-- A freshly constructed inspector. -/
def freshInspector : InspectorState := ⟨[], []⟩

/-- The FAIL result for a missing workflows directory. -/
def dirMissingResult (now : Nat) (path : String) : DiagnosticResult :=
  { timestamp := now
    test_name := "workflows_directory_exists"
    status := TestStatus.fail
    message := "GitHub Actions workflows directory not found"
    details := "Expected directory: " ++ path
    suggested_fix := some "Create .github/workflows directory and add GitHub Pages deployment workflow"
    severity := Severity.high
    metadata := [("path", MetaVal.s path)] }

/-- The PASS result for an existing workflows directory. -/
def dirFoundResult (now : Nat) (path : String) : DiagnosticResult :=
  { timestamp := now
    test_name := "workflows_directory_exists"
    status := TestStatus.pass
    message := "GitHub Actions workflows directory found"
    details := "Directory exists: " ++ path
    suggested_fix := none
    severity := Severity.low
    metadata := [("path", MetaVal.s path)] }

/-- _check_workflows_directory: one result. -/
def checkWorkflowsDirectory (now : Nat) (fs : RepoFS) : List DiagnosticResult :=
  if fs.workflowsDirExists then [dirFoundResult now fs.workflowsPath]
  else [dirMissingResult now fs.workflowsPath]

/-- The FAIL result for a failed file enumeration. -/
def discoveryErrorResult (now : Nat) (path msg : String) : DiagnosticResult :=
  { timestamp := now
    test_name := "workflow_files_discovery"
    status := TestStatus.fail
    message := "Failed to discover workflow files: " ++ msg
    details := "Error scanning " ++ path
    suggested_fix := none
    severity := Severity.medium
    metadata := [("error", MetaVal.s msg)] }

/-- The FAIL result for an empty discovered-file list. -/
def noFilesResult (now : Nat) (path : String) : DiagnosticResult :=
  { timestamp := now
    test_name := "workflow_files_found"
    status := TestStatus.fail
    message := "No workflow files found"
    details := "No .yml or .yaml files in " ++ path
    suggested_fix := some "Create a GitHub Pages deployment workflow file"
    severity := Severity.high
    metadata := [("file_count", MetaVal.n 0)] }

/-- The PASS result listing the discovered files (the whole accumulated
list of the instance, not only the files of this call). -/
def filesFoundResult (now : Nat) (path : String) (files : List WFile) : DiagnosticResult :=
  { timestamp := now
    test_name := "workflow_files_found"
    status := TestStatus.pass
    message := "Found " ++ Nat.repr files.length ++ " workflow file(s)"
    details := "Workflow files: " ++ pyListRepr (files.map WFile.name)
    suggested_fix := none
    severity := Severity.low
    metadata := [("file_count", MetaVal.n files.length),
                 ("files", MetaVal.strs (files.map fun f => path ++ "/" ++ f.name))] }

/-- _discover_workflow_files: extend the persistent file list with the
enumeration and report on the extended list; on an enumeration failure
report FAIL/MEDIUM and leave the state unchanged. -/
def discoverWorkflowFiles (now : Nat) (fs : RepoFS) (st : InspectorState) :
    InspectorState × List DiagnosticResult :=
  match fs.listing with
  | Except.error e => (st, [discoveryErrorResult now fs.workflowsPath e])
  | Except.ok files =>
    let st2 : InspectorState := { st with workflow_files := st.workflow_files ++ files }
    if st2.workflow_files.isEmpty then (st2, [noFilesResult now fs.workflowsPath])
    else (st2, [filesFoundResult now fs.workflowsPath st2.workflow_files])

/-- The PASS result for one successfully parsed file. -/
def parseOkResult (now : Nat) (path name : String) (w : Workflow) : DiagnosticResult :=
  { timestamp := now
    test_name := "parse_workflow_" ++ name
    status := TestStatus.pass
    message := "Successfully parsed " ++ name
    details := "Workflow contains " ++ Nat.repr w.jobs.length ++ " job(s)"
    suggested_fix := none
    severity := Severity.low
    metadata := [("file", MetaVal.s (path ++ "/" ++ name)),
                 ("job_count", MetaVal.n w.jobs.length)] }

/-- The FAIL result for a file whose parse yields no content. -/
def parseEmptyResult (now : Nat) (path name : String) : DiagnosticResult :=
  { timestamp := now
    test_name := "parse_workflow_" ++ name
    status := TestStatus.fail
    message := "Workflow file " ++ name ++ " is empty or invalid"
    details := "YAML file contains no content"
    suggested_fix := some "Add valid workflow configuration to the file"
    severity := Severity.high
    metadata := [("file", MetaVal.s (path ++ "/" ++ name))] }

/-- The FAIL result for a YAML syntax error. -/
def parseYamlErrorResult (now : Nat) (path name msg : String) : DiagnosticResult :=
  { timestamp := now
    test_name := "parse_workflow_" ++ name
    status := TestStatus.fail
    message := "YAML parsing error in " ++ name
    details := "YAML error: " ++ msg
    suggested_fix := some "Fix YAML syntax errors in the workflow file"
    severity := Severity.high
    metadata := [("file", MetaVal.s (path ++ "/" ++ name)), ("error", MetaVal.s msg)] }

/-- The FAIL result for any other read failure. -/
def parseReadErrorResult (now : Nat) (path name msg : String) : DiagnosticResult :=
  { timestamp := now
    test_name := "parse_workflow_" ++ name
    status := TestStatus.fail
    message := "Failed to read " ++ name ++ ": " ++ msg
    details := "File access error: " ++ msg
    suggested_fix := none
    severity := Severity.medium
    metadata := [("file", MetaVal.s (path ++ "/" ++ name)), ("error", MetaVal.s msg)] }

/-- The parse loop over a file list: thread the parsed-workflow dict
and emit one result per file. -/
def parseWorkflowFilesAux (now : Nat) (path : String) :
    List WFile → List (String × Workflow) →
    List (String × Workflow) × List DiagnosticResult
  | [], parsed => (parsed, [])
  | f :: rest, parsed =>
    match f.content with
    | ParseOutcome.parsed w =>
      let step := parseWorkflowFilesAux now path rest (dictInsert parsed f.name w)
      (step.1, parseOkResult now path f.name w :: step.2)
    | ParseOutcome.empty =>
      let step := parseWorkflowFilesAux now path rest parsed
      (step.1, parseEmptyResult now path f.name :: step.2)
    | ParseOutcome.yamlError m =>
      let step := parseWorkflowFilesAux now path rest parsed
      (step.1, parseYamlErrorResult now path f.name m :: step.2)
    | ParseOutcome.readError m =>
      let step := parseWorkflowFilesAux now path rest parsed
      (step.1, parseReadErrorResult now path f.name m :: step.2)

/-- _parse_workflow_files: parse every file of the accumulated list,
keying successful parses by file name in the persistent dict. -/
def parseWorkflowFiles (now : Nat) (path : String) (st : InspectorState) :
    InspectorState × List DiagnosticResult :=
  let p := parseWorkflowFilesAux now path st.workflow_files st.parsed_workflows
  ({ st with parsed_workflows := p.1 }, p.2)

/-- The per-file validation loop: permissions, triggers, steps and
deployment results for every parsed file in dict order; the TypeError
of the triggers pass aborts the whole loop. -/
def validateFiles (now : Nat) : List (String × Workflow) →
    Except PyExn (List DiagnosticResult)
  | [] => Except.ok []
  | (f, w) :: rest =>
    match validateWorkflowTriggers now f w with
    | Except.error e => Except.error e
    | Except.ok trigRs =>
      match validateFiles now rest with
      | Except.error e => Except.error e
      | Except.ok restRs =>
        Except.ok (validateWorkflowPermissions now f w ++ trigRs ++
                   validateWorkflowSteps now f w ++ validatePagesDeployment now f w ++ restRs)

/-- Whether a parsed workflow has a job with a deploy-pages step. -/
def workflowDeploysPages (w : Workflow) : Bool :=
  w.jobs.any fun p => p.2.steps.any fun st => strContains st.uses "deploy-pages"

/-- _assess_overall_configuration: one cross-file result. -/
def assessOverallConfiguration (now : Nat) (st : InspectorState) : List DiagnosticResult :=
  if st.parsed_workflows.isEmpty then
    [{ timestamp := now
       test_name := "overall_workflow_assessment"
       status := TestStatus.fail
       message := "No valid workflow configurations found"
       details := "Repository has no working GitHub Actions workflows"
       suggested_fix := some "Create a GitHub Pages deployment workflow"
       severity := Severity.critical
       metadata := [] }]
  else
    let total := st.parsed_workflows.length
    let pages := (st.parsed_workflows.filter fun p => workflowDeploysPages p.2).length
    if pages = 0 then
      [{ timestamp := now
         test_name := "overall_workflow_assessment"
         status := TestStatus.fail
         message := "No GitHub Pages deployment workflows found"
         details := "Found " ++ Nat.repr total ++ " workflow(s) but none deploy to Pages"
         suggested_fix := some "Add GitHub Pages deployment to an existing workflow or create a new one"
         severity := Severity.high
         metadata := [("workflow_count", MetaVal.n total), ("pages_workflows", MetaVal.n pages)] }]
    else
      [{ timestamp := now
         test_name := "overall_workflow_assessment"
         status := TestStatus.pass
         message := "Found " ++ Nat.repr pages ++ " GitHub Pages deployment workflow(s)"
         details := "Total workflows: " ++ Nat.repr total ++ ", Pages workflows: " ++ Nat.repr pages
         suggested_fix := none
         severity := Severity.low
         metadata := [("workflow_count", MetaVal.n total), ("pages_workflows", MetaVal.n pages)] }]

/-- WorkflowInspector.run_diagnostics: directory check (terminal when
the directory is absent), discovery, parsing, per-file validation and
the cross-file assessment, returning the updated instance state and
either the ordered results or the exception that escaped. -/
def workflowRunDiagnostics (now : Nat) (fs : RepoFS) (st : InspectorState) :
    InspectorState × Except PyExn (List DiagnosticResult) :=
  let dirResults := checkWorkflowsDirectory now fs
  if fs.workflowsDirExists then
    let p1 := discoverWorkflowFiles now fs st
    let p2 := parseWorkflowFiles now fs.workflowsPath p1.1
    match validateFiles now p2.1.parsed_workflows with
    | Except.error e => (p2.1, Except.error e)
    | Except.ok valRs =>
      (p2.1, Except.ok (dirResults ++ p1.2 ++ p2.2 ++ valRs ++
                        assessOverallConfiguration now p2.1))
  else (st, Except.ok dirResults)

/-- The results of a run outcome, empty on an escaped exception. -/
def exceptResults : Except PyExn (List DiagnosticResult) → List DiagnosticResult
  | Except.ok rs => rs
  | Except.error _ => []

/-- Whether a run outcome returned normally. -/
def exceptIsOk : Except PyExn (List DiagnosticResult) → Bool
  | Except.ok _ => true
  | Except.error _ => false

/-! ### Concrete inputs used by witnesses and counterexamples -/

/-- A fully conforming deployment workflow: push on main plus manual
dispatch, the three required permissions at workflow scope, and one job
running the complete publish sequence at current versions. -/
def exampleGoodWorkflow : Workflow :=
  { permissions := [("contents", "read"), ("pages", "write"), ("id-token", "write")]
    onTrigger := some (TriggerVal.map
      [("push", TriggerConf.conf ["main"]), ("workflow_dispatch", TriggerConf.other)])
    boolTrigger := none
    jobs := [("deploy",
      { permissions := []
        steps := [⟨"actions/checkout@v4"⟩, ⟨"actions/configure-pages@v4"⟩,
                  ⟨"actions/upload-pages-artifact@v3"⟩, ⟨"actions/deploy-pages@v4"⟩] })] }

/-- The conforming workflow with the pages and id-token permissions
omitted at every scope. -/
def permMissingWorkflow : Workflow :=
  { exampleGoodWorkflow with permissions := [("contents", "read")] }

/-- A job with both essential actions present but an outdated checkout
version. -/
def outdatedJob : WJob :=
  { permissions := []
    steps := [⟨"actions/checkout@v2"⟩, ⟨"actions/deploy-pages@v4"⟩] }

/-- A workflow whose only publish job has the configure-pages step but
lacks the other two canonical steps. -/
def incompleteDeployWorkflow : Workflow :=
  { permissions := []
    onTrigger := some (TriggerVal.str "push")
    boolTrigger := none
    jobs := [("site", { permissions := [], steps := [⟨"actions/configure-pages@v4"⟩] })] }

/-- A workflow in which no single scope carries all three required
permissions, but the union across the workflow scope and the two
publish-related jobs does. -/
def unionPermsWorkflow : Workflow :=
  { permissions := [("contents", "read")]
    onTrigger := some (TriggerVal.map
      [("push", TriggerConf.conf ["main"]), ("workflow_dispatch", TriggerConf.other)])
    boolTrigger := none
    jobs := [("build-pages", { permissions := [("pages", "write")], steps := [] }),
             ("deploy", { permissions := [("id-token", "write")], steps := [] })] }

/-- A workflow whose two publish-related jobs assign conflicting values
to the pages permission; the later job wins in the merged view. -/
def conflictPermsWorkflow : Workflow :=
  { permissions := [("contents", "read"), ("id-token", "write")]
    onTrigger := some (TriggerVal.str "push")
    boolTrigger := none
    jobs := [("deploy-a", { permissions := [("pages", "read")], steps := [] }),
             ("deploy-b", { permissions := [("pages", "write")], steps := [] })] }

/-- A repository tree holding one valid workflow file. -/
def oneFileRepo : RepoFS :=
  { workflowsDirExists := true
    workflowsPath := ".github/workflows"
    listing := Except.ok [⟨"deploy.yml", ParseOutcome.parsed exampleGoodWorkflow⟩] }

/-- A repository tree without the workflows directory. -/
def noDirRepo : RepoFS :=
  { workflowsDirExists := false
    workflowsPath := ".github/workflows"
    listing := Except.ok [] }

/-- First engine run against the one-file tree, from a fresh
instance. -/
def firstEngineRun : InspectorState × Except PyExn (List DiagnosticResult) :=
  workflowRunDiagnostics 0 oneFileRepo freshInspector

/-- Second engine run against the unchanged tree, reusing the instance
state left by the first run. -/
def secondEngineRun : InspectorState × Except PyExn (List DiagnosticResult) :=
  workflowRunDiagnostics 0 oneFileRepo firstEngineRun.1

/-- A sample raised exception. -/
def sampleExn : PyExn := ⟨"ValueError", "boom"⟩

/-- A component as it stands before a repeat execute call: it still
holds results and timestamps of an earlier call. -/
def staleComponent : ComponentState :=
  { name := "WorkflowInspector"
    results := [dirFoundResult 0 ".github/workflows"]
    start_time := some 1
    end_time := some 2 }

/-- A session as start_session leaves it. -/
def sampleSession : SessionState :=
  { session_id := "s-1"
    start_time := 0
    end_time := none
    diagnostic_results := []
    metadata := [("repository_path", ".")] }

/-- Two registered components, the second of which raises out of its
execute call. -/
def mixedCompRuns : List CompRun :=
  [⟨"WorkflowInspector", 1, Except.ok [dirFoundResult 1 ".github/workflows"]⟩,
   ⟨"BrokenComponent", 2, Except.error sampleExn⟩]

/-- The triple view of a run outcome: the exception on error, the
result triples on success. -/
def exTriples : Except PyExn (List DiagnosticResult) →
    Except PyExn (List (String × TestStatus × Severity))
  | Except.ok rs => Except.ok (rs.map resultTriple)
  | Except.error e => Except.error e

/-! ## Helper lemmas -/

theorem strContains_of_sub {hay needle : String} (h : needle.data <:+: hay.data) :
    strContains hay needle = true :=
  decide_eq_true h

theorem infix_of_strContains {hay needle : String} (h : strContains hay needle = true) :
    needle.data <:+: hay.data :=
  of_decide_eq_true h

theorem strContains_append_left (a b : String) : strContains (a ++ b) a = true := by
  apply decide_eq_true
  rw [String.data_append]
  exact (List.prefix_append a.data b.data).isInfix

theorem orchFold_results (comps : List CompRun) (sess : SessionState) :
    (comps.foldl orchRunStep sess).diagnostic_results =
      sess.diagnostic_results ++ (comps.map compContribution).flatten := by
  induction comps generalizing sess with
  | nil => simp
  | cons c t ih =>
    rw [List.foldl_cons, ih]
    simp [orchRunStep, List.append_assoc]

theorem orchFold_end_time (comps : List CompRun) (sess : SessionState) :
    (comps.foldl orchRunStep sess).end_time = sess.end_time := by
  induction comps generalizing sess with
  | nil => rfl
  | cons c t ih => rw [List.foldl_cons, ih]; rfl

/-- Claim C9: for every registration order and prior session contents, a
run of the orchestrator yields a session whose result sequence equals
the prior results followed by each component contribution in
registration order (so results of component i precede those of
component i+1), the sequence only ever grows during the run (every
intermediate result list is a prefix of the final one, so no result is
mutated or removed), and the end time is set at the end. -/
theorem session_results_append_only (sess : SessionState) (comps : List CompRun)
    (tEnd : Nat) :
    ∃ final, runDiagnosticsOrch (some sess) comps tEnd = Except.ok final ∧
      final.diagnostic_results =
        sess.diagnostic_results ++ (comps.map compContribution).flatten ∧
      (∀ n, ((comps.take n).foldl orchRunStep sess).diagnostic_results <+:
        final.diagnostic_results) ∧
      final.end_time = some tEnd := by
  refine ⟨_, rfl, ?_, ?_, rfl⟩
  · exact orchFold_results comps sess
  · intro n
    show ((comps.take n).foldl orchRunStep sess).diagnostic_results <+:
      (comps.foldl orchRunStep sess).diagnostic_results
    rw [orchFold_results, orchFold_results]
    conv_rhs => rw [← List.take_append_drop n comps]
    rw [List.map_append, List.flatten_append, ← List.append_assoc]
    exact List.prefix_append _ _

/-- Claim C2: if the i-th registered component raises out of execute,
the orchestrator still completes the run: the session receives the
prior results followed by every component contribution in order, the
raising component contributes exactly one synthetic FAIL result of
severity HIGH whose check name contains the component name, every
other component contribution still appears inside the final result
sequence, and the end time is set after all components have been
attempted. -/
theorem orchestrator_isolates_component_failures (sess : SessionState)
    (comps : List CompRun) (tEnd : Nat) (i : Nat) (hi : i < comps.length) (e : PyExn)
    (he : (comps.get ⟨i, hi⟩).outcome = Except.error e) :
    ∃ final, runDiagnosticsOrch (some sess) comps tEnd = Except.ok final ∧
      final.diagnostic_results =
        sess.diagnostic_results ++ (comps.map compContribution).flatten ∧
      compContribution (comps.get ⟨i, hi⟩) =
        [orchestratorErrorResult (comps.get ⟨i, hi⟩).name (comps.get ⟨i, hi⟩).tErr e] ∧
      (orchestratorErrorResult (comps.get ⟨i, hi⟩).name (comps.get ⟨i, hi⟩).tErr e).status =
        TestStatus.fail ∧
      (orchestratorErrorResult (comps.get ⟨i, hi⟩).name (comps.get ⟨i, hi⟩).tErr e).severity =
        Severity.high ∧
      strContains
        (orchestratorErrorResult (comps.get ⟨i, hi⟩).name (comps.get ⟨i, hi⟩).tErr e).test_name
        (comps.get ⟨i, hi⟩).name = true ∧
      (∀ j : Fin comps.length, compContribution (comps.get j) <:+: final.diagnostic_results) ∧
      final.end_time = some tEnd := by
  refine ⟨_, rfl, orchFold_results comps sess, ?_, rfl, rfl, ?_, ?_, rfl⟩
  · simp only [compContribution]
    rw [he]
  · exact strContains_append_left _ _
  · intro j
    show compContribution (comps.get j) <:+:
      (comps.foldl orchRunStep sess).diagnostic_results
    rw [orchFold_results]
    have h1 : compContribution (comps.get j) ∈ comps.map compContribution :=
      List.mem_map_of_mem compContribution (List.get_mem comps j.1 j.2)
    exact ((List.infix_of_mem_flatten h1).trans
      (List.suffix_append sess.diagnostic_results _).isInfix)

/-- Witness for C2 at a concrete registry with one healthy and one
raising component. -/
theorem orchestrator_isolates_component_failures_witness :
    ∃ final, runDiagnosticsOrch (some sampleSession) mixedCompRuns 9 = Except.ok final ∧
      final.diagnostic_results =
        sampleSession.diagnostic_results ++ (mixedCompRuns.map compContribution).flatten ∧
      final.end_time = some 9 := by
  have h := orchestrator_isolates_component_failures sampleSession mixedCompRuns 9 1
    (by decide) sampleExn rfl
  obtain ⟨final, h1, h2, _, _, _, _, _, h8⟩ := h
  exact ⟨final, h1, h2, h8⟩

/-- Claim C1: execute never propagates a failure of run_diagnostics: it
records the start and end timestamps on every exit, returns exactly the
run results on success, and on any raised exception returns exactly one
FAIL result of severity HIGH whose message contains the exception
message and whose metadata carries the exception type name; the
component results are reset on every call, so the outcome does not
depend on results of a prior call. -/
theorem execute_isolates_failures (c : ComponentState) (tStart tErr tEnd : Nat)
    (run : Except PyExn (List DiagnosticResult)) :
    (componentExecute c tStart tErr tEnd run).end_time = some tEnd ∧
    (componentExecute c tStart tErr tEnd run).start_time = some tStart ∧
    (∀ rs, run = Except.ok rs → (componentExecute c tStart tErr tEnd run).results = rs) ∧
    (∀ e, run = Except.error e →
      (componentExecute c tStart tErr tEnd run).results = [executionErrorResult c.name tErr e] ∧
      (executionErrorResult c.name tErr e).status = TestStatus.fail ∧
      (executionErrorResult c.name tErr e).severity = Severity.high ∧
      (∃ pre post, (executionErrorResult c.name tErr e).message = pre ++ e.msg ++ post) ∧
      List.lookup "exception_type" (executionErrorResult c.name tErr e).metadata =
        some (MetaVal.s e.typeName)) ∧
    (∀ c2 : ComponentState, c2.name = c.name →
      (componentExecute c2 tStart tErr tEnd run).results =
        (componentExecute c tStart tErr tEnd run).results) := by
  refine ⟨?_, ?_, ?_, ?_, ?_⟩
  · cases run <;> rfl
  · cases run <;> rfl
  · intro rs h; subst h; rfl
  · intro e h
    subst h
    refine ⟨rfl, rfl, rfl, ⟨"Component execution failed: ", "", ?_⟩, rfl⟩
    rw [String.append_empty]; rfl
  · intro c2 hname
    cases run <;> simp [componentExecute, hname]

/-- Witness for C1 at a component that still holds results of a prior
call, with the run raising a ValueError. -/
theorem execute_isolates_failures_witness :
    (componentExecute staleComponent 3 4 5 (Except.error sampleExn)).results =
      [executionErrorResult "WorkflowInspector" 4 sampleExn] ∧
    (componentExecute staleComponent 3 4 5 (Except.error sampleExn)).end_time = some 5 := by
  have h := execute_isolates_failures staleComponent 3 4 5 (Except.error sampleExn)
  exact ⟨(h.2.2.2.1 sampleExn rfl).1, h.1⟩

/-- Claim C8: when the workflows directory does not exist, a run of the
rule engine produces exactly one result, named for the directory check,
with status FAIL and severity HIGH, leaves the instance state
untouched, and produces no discovery, parse, validation or assessment
results. -/
theorem missing_directory_single_result (t : Nat) (fs : RepoFS) (st : InspectorState)
    (h : fs.workflowsDirExists = false) :
    workflowRunDiagnostics t fs st = (st, Except.ok [dirMissingResult t fs.workflowsPath]) ∧
    (dirMissingResult t fs.workflowsPath).test_name = "workflows_directory_exists" ∧
    (dirMissingResult t fs.workflowsPath).status = TestStatus.fail ∧
    (dirMissingResult t fs.workflowsPath).severity = Severity.high := by
  refine ⟨?_, rfl, rfl, rfl⟩
  simp [workflowRunDiagnostics, checkWorkflowsDirectory, h]

/-- Witness for C8 at a concrete repository lacking the directory. -/
theorem missing_directory_single_result_witness :
    workflowRunDiagnostics 0 noDirRepo freshInspector =
      (freshInspector, Except.ok [dirMissingResult 0 ".github/workflows"]) ∧
    (dirMissingResult 0 ".github/workflows").status = TestStatus.fail := by
  have h := missing_directory_single_result 0 noDirRepo freshInspector rfl
  exact ⟨h.1, h.2.2.1⟩

theorem data_prefix_append (a b : String) : a.data <+: (a ++ b).data := by
  rw [String.data_append]; exact List.prefix_append _ _

theorem data_suffix_append (a b : String) : b.data <:+ (a ++ b).data := by
  rw [String.data_append]; exact List.suffix_append _ _

theorem data_prefix_extend {a b : String} (c : String) (h : a.data <+: b.data) :
    a.data <+: (b ++ c).data := by
  rw [String.data_append]; exact h.trans (List.prefix_append _ _)

theorem intercalate_go_acc_le (s : String) (as : List String) :
    ∀ acc, acc.data <+: (String.intercalate.go acc s as).data := by
  induction as with
  | nil => intro acc; exact List.prefix_refl _
  | cons a t ih =>
    intro acc
    have hstep : String.intercalate.go acc s (a :: t) =
        String.intercalate.go (acc ++ s ++ a) s t := rfl
    rw [hstep]
    refine List.IsPrefix.trans ?_ (ih (acc ++ s ++ a))
    rw [String.data_append, String.data_append, List.append_assoc]
    exact List.prefix_append _ _

theorem intercalate_go_mem_sub (s x : String) (as : List String) :
    ∀ acc, x ∈ as → x.data <:+: (String.intercalate.go acc s as).data := by
  induction as with
  | nil => intro acc h; cases h
  | cons a t ih =>
    intro acc h
    have hstep : String.intercalate.go acc s (a :: t) =
        String.intercalate.go (acc ++ s ++ a) s t := rfl
    rw [hstep]
    cases h with
    | head =>
      exact (data_suffix_append (acc ++ s) x).isInfix.trans
        (intercalate_go_acc_le s t (acc ++ s ++ x)).isInfix
    | tail _ h2 => exact ih (acc ++ s ++ a) h2

/-- A member of the list is a substring of its intercalation. -/
theorem intercalate_mem_sub (s : String) (l : List String) (x : String) (h : x ∈ l) :
    x.data <:+: (String.intercalate s l).data := by
  cases l with
  | nil => cases h
  | cons a t =>
    have hstep : String.intercalate s (a :: t) = String.intercalate.go a s t := rfl
    rw [hstep]
    cases h with
    | head => exact (intercalate_go_acc_le s t x).isInfix
    | tail _ h2 => exact intercalate_go_mem_sub s x t a h2

theorem mem_missingPermissions (w : Workflow) (k : String) :
    k ∈ missingPermissions w ↔
      (∃ v, (k, v) ∈ REQUIRED_PERMISSIONS) ∧ List.lookup k (mergedPermissions w) = none := by
  constructor
  · intro h
    rcases List.mem_filterMap.mp h with ⟨⟨k1, v⟩, hmem, hf⟩
    by_cases hn : (List.lookup k1 (mergedPermissions w)).isNone
    · rw [if_pos hn] at hf
      cases hf
      exact ⟨⟨v, hmem⟩, Option.isNone_iff_eq_none.mp hn⟩
    · rw [if_neg hn] at hf
      cases hf
  · rintro ⟨⟨v, hmem⟩, hl⟩
    exact List.mem_filterMap.mpr ⟨(k, v), hmem, by simp [hl]⟩

theorem mem_incorrectPermissions (w : Workflow) (p : PermIssue) :
    p ∈ incorrectPermissions w ↔
      ((p.permission, p.expected) ∈ REQUIRED_PERMISSIONS ∧
       List.lookup p.permission (mergedPermissions w) = some p.actual ∧
       p.actual ≠ p.expected) := by
  constructor
  · intro h
    rcases List.mem_filterMap.mp h with ⟨⟨k1, e1⟩, hmem, hf⟩
    rcases hcase : List.lookup k1 (mergedPermissions w) with _ | v
    · rw [hcase] at hf; cases hf
    · rw [hcase] at hf
      dsimp only at hf
      by_cases hne : v ≠ e1
      · rw [if_pos hne] at hf
        cases hf
        exact ⟨hmem, hcase, hne⟩
      · rw [if_neg hne] at hf
        cases hf
  · rintro ⟨hmem, hl, hne⟩
    refine List.mem_filterMap.mpr ⟨(p.permission, p.expected), hmem, ?_⟩
    rw [hl]
    dsimp only
    rw [if_pos hne]

theorem permissions_details_contains_missing (missing : List String)
    (incorrect : List PermIssue) (k : String) (hk : k ∈ missing) :
    strContains (permissionsDetails missing incorrect) k = true := by
  have hne : missing.isEmpty = false := by
    cases missing with
    | nil => cases hk
    | cons a t => rfl
  have h1 : k.data <:+:
      ("Missing permissions: " ++ String.intercalate ", " missing).data :=
    (intercalate_mem_sub ", " missing k hk).trans
      (data_suffix_append "Missing permissions: " _).isInfix
  have hmem : ("Missing permissions: " ++ String.intercalate ", " missing) ∈
      ((if missing.isEmpty then []
        else ["Missing permissions: " ++ String.intercalate ", " missing]) ++
       incorrect.map permissionIssueText) := by
    rw [hne]
    exact List.mem_append_left _ (List.mem_singleton.mpr rfl)
  exact strContains_of_sub
    (h1.trans (intercalate_mem_sub "; " _ _ hmem))

theorem permission_issue_text_contains (p : PermIssue) :
    p.permission.data <+: (permissionIssueText p).data := by
  unfold permissionIssueText
  exact data_prefix_extend _ (data_prefix_extend _ (data_prefix_extend _
    (data_prefix_extend _ (data_prefix_append _ _))))

theorem permissions_details_contains_incorrect (missing : List String)
    (incorrect : List PermIssue) (p : PermIssue) (hp : p ∈ incorrect) :
    strContains (permissionsDetails missing incorrect) p.permission = true := by
  have hmem : permissionIssueText p ∈
      ((if missing.isEmpty then []
        else ["Missing permissions: " ++ String.intercalate ", " missing]) ++
       incorrect.map permissionIssueText) :=
    List.mem_append_right _ (List.mem_map_of_mem permissionIssueText hp)
  exact strContains_of_sub
    ((permission_issue_text_contains p).isInfix.trans
      (intercalate_mem_sub "; " _ _ hmem))

/-- Claim C3: the permissions check compares the merged permission view
(workflow scope overlaid by the permissions of publish-related jobs)
against the required set: a required key absent from the merged view is
reported missing, a required key bound to a different value is reported
incorrect, and the check emits exactly one result: FAIL/HIGH with
details naming every missing and incorrect key when either list is
nonempty, else PASS/LOW; in particular, omitting pages and id-token
yields a FAIL/HIGH result whose details mention both keys by name. -/
theorem permissions_check_classification (t : Nat) (f : String) (w : Workflow) :
    ∃ r, validateWorkflowPermissions t f w = [r] ∧
      (missingPermissions w = [] ∧ incorrectPermissions w = [] →
        r.status = TestStatus.pass ∧ r.severity = Severity.low) ∧
      (missingPermissions w ≠ [] ∨ incorrectPermissions w ≠ [] →
        r.status = TestStatus.fail ∧ r.severity = Severity.high ∧
        (∀ k ∈ missingPermissions w, strContains r.details k = true) ∧
        (∀ p ∈ incorrectPermissions w, strContains r.details p.permission = true)) ∧
      (∀ k, k ∈ missingPermissions w ↔
        (∃ v, (k, v) ∈ REQUIRED_PERMISSIONS) ∧
        List.lookup k (mergedPermissions w) = none) ∧
      (∀ p, p ∈ incorrectPermissions w ↔
        ((p.permission, p.expected) ∈ REQUIRED_PERMISSIONS ∧
         List.lookup p.permission (mergedPermissions w) = some p.actual ∧
         p.actual ≠ p.expected)) ∧
      (∃ rb, validateWorkflowPermissions 0 "deploy.yml" permMissingWorkflow = [rb] ∧
        rb.status = TestStatus.fail ∧ rb.severity = Severity.high ∧
        strContains rb.details "pages" = true ∧
        strContains rb.details "id-token" = true) := by
  have hconcrete : ∃ rb,
      validateWorkflowPermissions 0 "deploy.yml" permMissingWorkflow = [rb] ∧
      rb.status = TestStatus.fail ∧ rb.severity = Severity.high ∧
      strContains rb.details "pages" = true ∧
      strContains rb.details "id-token" = true := by
    refine ⟨permsFailResult 0 "deploy.yml" (missingPermissions permMissingWorkflow)
      (incorrectPermissions permMissingWorkflow), ?_, rfl, rfl, by decide, by decide⟩
    decide
  by_cases hcond : ((missingPermissions w).isEmpty && (incorrectPermissions w).isEmpty) = true
  · have hm : missingPermissions w = [] := by
      have := (Bool.and_eq_true _ _).mp hcond
      exact List.isEmpty_iff.mp this.1
    have hi : incorrectPermissions w = [] := by
      have := (Bool.and_eq_true _ _).mp hcond
      exact List.isEmpty_iff.mp this.2
    refine ⟨permsPassResult t f (mergedPermissions w), ?_, fun _ => ⟨rfl, rfl⟩, ?_,
      mem_missingPermissions w, mem_incorrectPermissions w, hconcrete⟩
    · simp [validateWorkflowPermissions, hcond]
    · intro h
      cases h with
      | inl h2 => exact absurd hm h2
      | inr h2 => exact absurd hi h2
  · refine ⟨permsFailResult t f (missingPermissions w) (incorrectPermissions w), ?_, ?_, ?_,
      mem_missingPermissions w, mem_incorrectPermissions w, hconcrete⟩
    · simp only [validateWorkflowPermissions]
      rw [if_neg hcond]
    · rintro ⟨hm, hi⟩
      exact absurd (by rw [hm, hi]; rfl) hcond
    · intro _
      exact ⟨rfl, rfl, fun k hk => permissions_details_contains_missing _ _ k hk,
        fun p hp => permissions_details_contains_incorrect _ _ p hp⟩

/-- Witness for C3 at the workflow omitting pages and id-token. -/
theorem permissions_check_classification_witness :
    ∃ r, validateWorkflowPermissions 1 "deploy.yml" permMissingWorkflow = [r] ∧
      r.status = TestStatus.fail ∧ r.severity = Severity.high := by
  obtain ⟨r, h1, _, h3, _, _, _⟩ :=
    permissions_check_classification 1 "deploy.yml" permMissingWorkflow
  have hfail := h3 (Or.inl (by decide))
  exact ⟨r, h1, hfail.1, hfail.2.1⟩

theorem trigger_issues_nil_iff_bool (trigs : List (String × TriggerConf)) :
    triggerIssues trigs = [] ↔
      (hasPushTrigger trigs = true ∧
       ((pushBranches trigs).isEmpty = true ∨
        (EXPECTED_BRANCHES.any fun b => (pushBranches trigs).contains b) = true) ∧
       hasManualTrigger trigs = true) := by
  unfold triggerIssues
  cases hp : hasPushTrigger trigs <;> cases hm : hasManualTrigger trigs <;>
    cases hb : (pushBranches trigs).isEmpty <;>
    cases ha : (EXPECTED_BRANCHES.any fun b => (pushBranches trigs).contains b) <;>
    simp only [hp, hm, hb, ha] <;> simp

theorem trigger_issues_nil_iff (trigs : List (String × TriggerConf)) :
    triggerIssues trigs = [] ↔
      (hasPushTrigger trigs = true ∧
       (pushBranches trigs = [] ∨ ∃ b ∈ EXPECTED_BRANCHES, b ∈ pushBranches trigs) ∧
       hasManualTrigger trigs = true) := by
  rw [trigger_issues_nil_iff_bool]
  have hmid : ((pushBranches trigs).isEmpty = true ∨
      (EXPECTED_BRANCHES.any fun b => (pushBranches trigs).contains b) = true) ↔
      (pushBranches trigs = [] ∨ ∃ b ∈ EXPECTED_BRANCHES, b ∈ pushBranches trigs) := by
    apply or_congr
    · exact List.isEmpty_iff
    · rw [List.any_eq_true]
      constructor
      · rintro ⟨b, hb1, hb2⟩; exact ⟨b, hb1, List.elem_iff.mp hb2⟩
      · rintro ⟨b, hb1, hb2⟩; exact ⟨b, hb1, List.elem_iff.mpr hb2⟩
  rw [hmid]

/-- Claim C4: the triggers check normalizes the trigger declaration (a
single string becomes a one-entry mapping, a string list a mapping with
empty configurations, a mapping is kept, and an absent, null or empty
declaration falls back to the boolean True key) and then emits exactly
one result, which is FAIL/HIGH exactly when the push trigger is absent,
or its branch filter is nonempty yet contains none of main, prod and
master, or the manual-dispatch trigger is absent; otherwise (in
particular with an empty branch filter) the result is PASS/LOW. -/
theorem triggers_check_classification (t : Nat) (f : String) (w : Workflow)
    (trigs : List (String × TriggerConf))
    (hn : normalizeTriggers (effectiveTriggers w) = some trigs) :
    ∃ r, validateWorkflowTriggers t f w = Except.ok [r] ∧
      ((r.status = TestStatus.fail ∧ r.severity = Severity.high) ↔
        (hasPushTrigger trigs = false ∨
         (pushBranches trigs ≠ [] ∧ ∀ b ∈ EXPECTED_BRANCHES, b ∉ pushBranches trigs) ∨
         hasManualTrigger trigs = false)) ∧
      ((r.status = TestStatus.pass ∧ r.severity = Severity.low) ↔
        ¬(hasPushTrigger trigs = false ∨
          (pushBranches trigs ≠ [] ∧ ∀ b ∈ EXPECTED_BRANCHES, b ∉ pushBranches trigs) ∨
          hasManualTrigger trigs = false)) ∧
      (∀ s, normalizeTriggers (TriggerVal.str s) = some [(s, TriggerConf.conf [])]) ∧
      (∀ ts, normalizeTriggers (TriggerVal.list ts) =
        some (ts.map fun x => (x, TriggerConf.conf []))) ∧
      (∀ m, normalizeTriggers (TriggerVal.map m) = some m) ∧
      ((w.onTrigger = none ∨ w.onTrigger = some TriggerVal.null ∨
        w.onTrigger = some (TriggerVal.map [])) →
        effectiveTriggers w = w.boolTrigger.getD (TriggerVal.map [])) := by
  have hviol : (hasPushTrigger trigs = false ∨
      (pushBranches trigs ≠ [] ∧ ∀ b ∈ EXPECTED_BRANCHES, b ∉ pushBranches trigs) ∨
      hasManualTrigger trigs = false) ↔
      ¬(hasPushTrigger trigs = true ∧
        (pushBranches trigs = [] ∨ ∃ b ∈ EXPECTED_BRANCHES, b ∈ pushBranches trigs) ∧
        hasManualTrigger trigs = true) := by
    constructor
    · rintro (h | ⟨h1, h2⟩ | h) ⟨c1, c2, c3⟩
      · rw [c1] at h; cases h
      · rcases c2 with hbnil | ⟨b, hbm, hbin⟩
        · exact h1 hbnil
        · exact h2 b hbm hbin
      · rw [c3] at h; cases h
    · intro h
      by_cases hp : hasPushTrigger trigs = true
      · by_cases hmn : hasManualTrigger trigs = true
        · refine Or.inr (Or.inl ⟨?_, ?_⟩)
          · intro hnil; exact h ⟨hp, Or.inl hnil, hmn⟩
          · intro b hbm hbin; exact h ⟨hp, Or.inr ⟨b, hbm, hbin⟩, hmn⟩
        · exact Or.inr (Or.inr (Bool.eq_false_iff.mpr hmn))
      · exact Or.inl (Bool.eq_false_iff.mpr hp)
  have hfallback : (w.onTrigger = none ∨ w.onTrigger = some TriggerVal.null ∨
      w.onTrigger = some (TriggerVal.map [])) →
      effectiveTriggers w = w.boolTrigger.getD (TriggerVal.map []) := by
    rintro (h | h | h) <;> rw [effectiveTriggers, h] <;> rfl
  by_cases hiss : (triggerIssues trigs).isEmpty = true
  · have hgood := (trigger_issues_nil_iff trigs).mp (List.isEmpty_iff.mp hiss)
    refine ⟨triggersPassResult t f trigs, ?_, ?_, ?_, fun _ => rfl, fun _ => rfl,
      fun _ => rfl, hfallback⟩
    · unfold validateWorkflowTriggers
      rw [hn]
      dsimp only
      rw [if_pos hiss]
    · constructor
      · rintro ⟨h, -⟩; exact TestStatus.noConfusion h
      · intro hv; exact absurd hgood (hviol.mp hv)
    · constructor
      · intro _; intro hv; exact absurd hgood (hviol.mp hv)
      · intro _; exact ⟨rfl, rfl⟩
  · have hissne : triggerIssues trigs ≠ [] := fun hnil => hiss (by rw [hnil]; rfl)
    have hv : hasPushTrigger trigs = false ∨
        (pushBranches trigs ≠ [] ∧ ∀ b ∈ EXPECTED_BRANCHES, b ∉ pushBranches trigs) ∨
        hasManualTrigger trigs = false :=
      hviol.mpr (fun hgood => hissne ((trigger_issues_nil_iff trigs).mpr hgood))
    refine ⟨triggersFailResult t f trigs (triggerIssues trigs), ?_, ?_, ?_, fun _ => rfl,
      fun _ => rfl, fun _ => rfl, hfallback⟩
    · unfold validateWorkflowTriggers
      rw [hn]
      dsimp only
      rw [if_neg hiss]
    · exact ⟨fun _ => hv, fun _ => ⟨rfl, rfl⟩⟩
    · constructor
      · rintro ⟨h, -⟩; exact TestStatus.noConfusion h
      · intro hnv; exact absurd hv hnv

/-- Witness for C4 at the conforming workflow (push on main plus manual
dispatch): the triggers check passes. -/
theorem triggers_check_classification_witness :
    ∃ r, validateWorkflowTriggers 2 "deploy.yml" exampleGoodWorkflow = Except.ok [r] ∧
      r.status = TestStatus.pass ∧ r.severity = Severity.low := by
  obtain ⟨r, h1, _, h3, _⟩ := triggers_check_classification 2 "deploy.yml"
    exampleGoodWorkflow
    [("push", TriggerConf.conf ["main"]), ("workflow_dispatch", TriggerConf.other)] rfl
  exact ⟨r, h1, h3.mpr (by decide)⟩

theorem mem_outdatedActions (used : List (String × String)) (a : ActionIssue) :
    a ∈ outdatedActions used ↔
      ((a.action, a.minimum, a.current) ∈ PAGES_ACTIONS ∧
       List.lookup a.action used = some a.used ∧
       pyStrLt a.used a.minimum = true) := by
  constructor
  · intro h
    rcases List.mem_filterMap.mp h with ⟨⟨k, mn, cur⟩, hmem, hf⟩
    rcases hcase : List.lookup k used with _ | uv
    · rw [hcase] at hf; cases hf
    · rw [hcase] at hf
      dsimp only at hf
      by_cases hlt : pyStrLt uv mn = true
      · rw [if_pos hlt] at hf
        cases hf
        exact ⟨hmem, hcase, hlt⟩
      · rw [if_neg hlt] at hf
        cases hf
  · rintro ⟨hmem, hl, hlt⟩
    refine List.mem_filterMap.mpr ⟨(a.action, a.minimum, a.current), hmem, ?_⟩
    rw [hl]
    dsimp only
    rw [if_pos hlt]

theorem mem_missingEssentialActions (used : List (String × String)) (e : String) :
    e ∈ missingEssentialActions used ↔
      e ∈ ESSENTIAL_ACTIONS ∧ List.lookup e used = none := by
  simp [missingEssentialActions, List.mem_filter, Option.isNone_iff_eq_none]

/-- Claim C5: the steps check emits one result per job; a known Pages
action is outdated exactly when its used version tag is below the
minimum tag of the table in lexicographic string order, an essential
action is missing exactly when it is absent from the action references
of the job, and the result of a job is WARNING/MEDIUM when only
outdated versions were found, FAIL/HIGH whenever an essential action is
missing, and PASS/LOW otherwise. -/
theorem steps_check_classification (t : Nat) (f jn : String) (j : WJob) :
    (∀ w : Workflow, validateWorkflowSteps t f w =
      w.jobs.map fun p => jobStepsResult t f p.1 p.2) ∧
    (∀ a, a ∈ outdatedActions (usedActions j.steps) ↔
      ((a.action, a.minimum, a.current) ∈ PAGES_ACTIONS ∧
       List.lookup a.action (usedActions j.steps) = some a.used ∧
       pyStrLt a.used a.minimum = true)) ∧
    (∀ e, e ∈ missingEssentialActions (usedActions j.steps) ↔
      (e ∈ ESSENTIAL_ACTIONS ∧ List.lookup e (usedActions j.steps) = none)) ∧
    (missingEssentialActions (usedActions j.steps) ≠ [] →
      (jobStepsResult t f jn j).status = TestStatus.fail ∧
      (jobStepsResult t f jn j).severity = Severity.high) ∧
    (outdatedActions (usedActions j.steps) ≠ [] →
      missingEssentialActions (usedActions j.steps) = [] →
      (jobStepsResult t f jn j).status = TestStatus.warning ∧
      (jobStepsResult t f jn j).severity = Severity.medium) ∧
    (outdatedActions (usedActions j.steps) = [] →
      missingEssentialActions (usedActions j.steps) = [] →
      (jobStepsResult t f jn j).status = TestStatus.pass ∧
      (jobStepsResult t f jn j).severity = Severity.low) := by
  refine ⟨fun _ => rfl, fun a => mem_outdatedActions _ a,
    fun e => mem_missingEssentialActions _ e, ?_, ?_, ?_⟩
  · intro hma
    have hma2 : (missingEssentialActions (usedActions j.steps)).isEmpty = false := by
      cases hcm : missingEssentialActions (usedActions j.steps) with
      | nil => exact absurd hcm hma
      | cons a t2 => rfl
    simp [jobStepsResult, hma2]
  · intro hod hma
    have hod2 : (outdatedActions (usedActions j.steps)).isEmpty = false := by
      cases hco : outdatedActions (usedActions j.steps) with
      | nil => exact absurd hco hod
      | cons a t2 => rfl
    simp [jobStepsResult, hod2, hma]
  · intro hod hma
    simp [jobStepsResult, hod, hma]

/-- Witness for C5 at a job with both essential actions but an outdated
checkout tag: the result is WARNING/MEDIUM, not FAIL. -/
theorem steps_check_classification_witness :
    (jobStepsResult 3 "deploy.yml" "build" outdatedJob).status = TestStatus.warning ∧
    (jobStepsResult 3 "deploy.yml" "build" outdatedJob).severity = Severity.medium := by
  obtain ⟨-, -, -, -, h5, -⟩ := steps_check_classification 3 "deploy.yml" "build" outdatedJob
  exact h5 (by decide) (by decide)

theorem deployFlagsAux_or (steps : List WStep) : ∀ c u d : Bool,
    ((deployFlagsAux (c, u, d) steps).1 || ((deployFlagsAux (c, u, d) steps).2.1 ||
      (deployFlagsAux (c, u, d) steps).2.2)) =
    ((c || (u || d)) || steps.any fun st =>
      strContains st.uses "configure-pages" ||
      (strContains st.uses "upload-pages-artifact" ||
       strContains st.uses "deploy-pages")) := by
  induction steps with
  | nil => intro c u d; simp [deployFlagsAux]
  | cons st rest ih =>
    intro c u d
    cases hc1 : strContains st.uses "configure-pages" <;>
      cases hc2 : strContains st.uses "upload-pages-artifact" <;>
      cases hc3 : strContains st.uses "deploy-pages" <;>
      simp [deployFlagsAux, hc1, hc2, hc3, ih]

theorem jobIsPublish_iff (j : WJob) : jobIsPublish j = true ↔
    ∃ st ∈ j.steps, (strContains st.uses "configure-pages" = true ∨
      strContains st.uses "upload-pages-artifact" = true ∨
      strContains st.uses "deploy-pages" = true) := by
  have h := deployFlagsAux_or j.steps false false false
  unfold jobIsPublish jobDeployFlags
  rw [show ∀ f : Bool × Bool × Bool, (f.1 || f.2.1 || f.2.2) =
    (f.1 || (f.2.1 || f.2.2)) from fun f => by rw [Bool.or_assoc]]
  rw [h]
  simp [List.any_eq_true]

theorem jobMissingSteps_nil_iff (j : WJob) :
    jobMissingSteps j = [] ↔
      ((jobDeployFlags j).1 && (jobDeployFlags j).2.1 && (jobDeployFlags j).2.2) = true := by
  rcases hf : jobDeployFlags j with ⟨c, u, d⟩
  cases c <;> cases u <;> cases d <;> simp [jobMissingSteps, hf]

theorem deploymentIssues_nil_iff (jobs : List (String × WJob)) :
    deploymentIssues jobs = [] ↔
      ∀ p ∈ jobs, jobIsPublish p.2 = true → jobMissingSteps p.2 = [] := by
  unfold deploymentIssues
  rw [List.filterMap_eq_nil_iff]
  constructor
  · intro h p hp hpub
    have h2 := h p hp
    rcases hf : jobDeployFlags p.2 with ⟨c, u, d⟩
    simp only [jobIsPublish, hf] at hpub
    cases c <;> cases u <;> cases d <;>
      simp [hf, jobMissingSteps] at h2 hpub ⊢
  · intro h p hp
    have h2 := h p hp
    rcases hf : jobDeployFlags p.2 with ⟨c, u, d⟩
    simp only [jobIsPublish, hf] at h2
    cases c <;> cases u <;> cases d <;>
      simp [hf, jobMissingSteps] at h2 ⊢

theorem hasPagesDeployment_iff (jobs : List (String × WJob)) :
    hasPagesDeployment jobs = true ↔ ∃ p ∈ jobs, jobIsPublish p.2 = true := by
  simp [hasPagesDeployment, List.any_eq_true]

/-- Claim C6: the deployment-completeness check classifies a job as a
publish job when any of its step references contains one of the three
canonical substrings, and emits exactly one result: FAIL/CRITICAL when
no job is a publish job, FAIL/HIGH when some publish job misses one of
the three canonical steps, PASS/LOW when every publish job has all
three. -/
theorem deployment_check_classification (t : Nat) (f : String) (w : Workflow) :
    ∃ r, validatePagesDeployment t f w = [r] ∧
      (∀ p ∈ w.jobs, (jobIsPublish p.2 = true ↔
        ∃ st ∈ p.2.steps, (strContains st.uses "configure-pages" = true ∨
          strContains st.uses "upload-pages-artifact" = true ∨
          strContains st.uses "deploy-pages" = true))) ∧
      ((¬∃ p ∈ w.jobs, jobIsPublish p.2 = true) →
        r.status = TestStatus.fail ∧ r.severity = Severity.critical) ∧
      ((∃ p ∈ w.jobs, jobIsPublish p.2 = true ∧ jobMissingSteps p.2 ≠ []) →
        r.status = TestStatus.fail ∧ r.severity = Severity.high) ∧
      ((∃ p ∈ w.jobs, jobIsPublish p.2 = true) →
        (∀ p ∈ w.jobs, jobIsPublish p.2 = true → jobMissingSteps p.2 = []) →
        r.status = TestStatus.pass ∧ r.severity = Severity.low) := by
  by_cases h1 : hasPagesDeployment w.jobs = true
  · by_cases h2 : (deploymentIssues w.jobs).isEmpty = true
    · have hnil := (deploymentIssues_nil_iff w.jobs).mp (List.isEmpty_iff.mp h2)
      refine ⟨deployCompleteResult t f, ?_, fun p _ => jobIsPublish_iff p.2, ?_, ?_,
        fun _ _ => ⟨rfl, rfl⟩⟩
      · unfold validatePagesDeployment
        rw [h1, List.isEmpty_iff.mp h2]
        rfl
      · intro hno
        exact absurd ((hasPagesDeployment_iff w.jobs).mp h1) hno
      · rintro ⟨p, hp, hpub, hmiss⟩
        exact absurd (hnil p hp hpub) hmiss
    · have hne : deploymentIssues w.jobs ≠ [] :=
        fun hnil2 => h2 (by rw [hnil2]; rfl)
      refine ⟨deployIncompleteResult t f (deploymentIssues w.jobs), ?_,
        fun p _ => jobIsPublish_iff p.2, ?_, fun _ => ⟨rfl, rfl⟩, ?_⟩
      · unfold validatePagesDeployment
        rw [h1]
        cases hc : deploymentIssues w.jobs with
        | nil => exact absurd hc hne
        | cons a t2 => rfl
      · intro hno
        exact absurd ((hasPagesDeployment_iff w.jobs).mp h1) hno
      · intro _ hall
        exact absurd ((deploymentIssues_nil_iff w.jobs).mpr hall) hne
  · have h1f : hasPagesDeployment w.jobs = false := by
      cases hc : hasPagesDeployment w.jobs with
      | true => exact absurd hc h1
      | false => rfl
    refine ⟨deployNoneResult t f, ?_, fun p _ => jobIsPublish_iff p.2,
      fun _ => ⟨rfl, rfl⟩, ?_, ?_⟩
    · unfold validatePagesDeployment
      rw [h1f]
      rfl
    · rintro ⟨p, hp, hpub, -⟩
      exact absurd ((hasPagesDeployment_iff w.jobs).mpr ⟨p, hp, hpub⟩) h1
    · intro hex _
      exact absurd ((hasPagesDeployment_iff w.jobs).mpr hex) h1

/-- Witness for C6 at a workflow whose single publish job has only the
configure-pages step: the check fails with severity HIGH. -/
theorem deployment_check_classification_witness :
    ∃ r, validatePagesDeployment 4 "deploy.yml" incompleteDeployWorkflow = [r] ∧
      r.status = TestStatus.fail ∧ r.severity = Severity.high := by
  obtain ⟨r, h1, -, -, h4, -⟩ :=
    deployment_check_classification 4 "deploy.yml" incompleteDeployWorkflow
  exact ⟨r, h1, h4 (by decide)⟩

theorem lookup_map_replace_ne {α : Type} (t : List (String × α)) (k : String) (v : α)
    (k' : String) (hne : k' ≠ k) :
    List.lookup k' (t.map fun p => if p.1 == k then (k, v) else p) =
      List.lookup k' t := by
  induction t with
  | nil => rfl
  | cons p t ih =>
    rcases p with ⟨pk, pv⟩
    by_cases hpk : pk = k
    · subst hpk
      have hc : ((pk, pv).1 == pk) = true := beq_self_eq_true pk
      rw [List.map_cons, if_pos hc]
      have hb : (k' == pk) = false := beq_eq_false_iff_ne.mpr hne
      simp only [List.lookup, hb]
      simpa using ih
    · have hbk : ¬(((pk, pv).1 == k) = true) := by
        simp [beq_eq_false_iff_ne.mpr hpk]
      rw [List.map_cons, if_neg hbk]
      by_cases hk' : k' = pk
      · subst hk'
        simp [List.lookup]
      · have hb : (k' == pk) = false := beq_eq_false_iff_ne.mpr hk'
        simp only [List.lookup, hb]
        simpa using ih

theorem lookup_map_replace_eq {α : Type} (t : List (String × α)) (k : String) (v : α)
    (hany : t.any (fun p => p.1 == k) = true) :
    List.lookup k (t.map fun p => if p.1 == k then (k, v) else p) = some v := by
  induction t with
  | nil => cases hany
  | cons p t ih =>
    rcases p with ⟨pk, pv⟩
    by_cases hpk : pk = k
    · subst hpk
      have hc : ((pk, pv).1 == pk) = true := beq_self_eq_true pk
      rw [List.map_cons, if_pos hc]
      simp [List.lookup]
    · have hbk : ¬(((pk, pv).1 == k) = true) := by
        simp [beq_eq_false_iff_ne.mpr hpk]
      rw [List.map_cons, if_neg hbk]
      have hany2 : t.any (fun p => p.1 == k) = true := by
        simpa [List.any_cons, beq_eq_false_iff_ne.mpr hpk] using hany
      have hb : (k == pk) = false := beq_eq_false_iff_ne.mpr (Ne.symm hpk)
      simp only [List.lookup, hb]
      simpa using ih hany2

theorem lookup_none_of_not_any {α : Type} (m : List (String × α)) (k : String)
    (h : m.any (fun p => p.1 == k) = false) : List.lookup k m = none := by
  induction m with
  | nil => rfl
  | cons p t ih =>
    rcases p with ⟨pk, pv⟩
    have h2 := h
    simp only [List.any_cons, Bool.or_eq_false_iff] at h2
    have hpk : (k == pk) = false := by
      rcases beq_eq_false_iff_ne.mp h2.1 with hne2
      exact beq_eq_false_iff_ne.mpr (Ne.symm hne2)
    simp [List.lookup, hpk, ih h2.2]

/-- Dict assignment and first-match lookup interact like a Python dict:
the assigned key reads back the assigned value, every other key is
unaffected. -/
theorem lookup_dictInsert {α : Type} (m : List (String × α)) (k : String) (v : α)
    (k' : String) :
    List.lookup k' (dictInsert m k v) = if k' = k then some v else List.lookup k' m := by
  unfold dictInsert
  by_cases hany : m.any (fun p => p.1 == k) = true
  · rw [if_pos hany]
    by_cases hk' : k' = k
    · subst hk'
      rw [if_pos rfl, lookup_map_replace_eq m k' v hany]
    · rw [if_neg hk', lookup_map_replace_ne m k v k' hk']
  · rw [if_neg hany]
    rw [List.lookup_append]
    by_cases hk' : k' = k
    · subst hk'
      have hnone : List.lookup k' m = none :=
        lookup_none_of_not_any m k' (Bool.eq_false_iff.mpr hany)
      rw [hnone, if_pos rfl]
      simp [List.lookup]
    · have hb : (k' == k) = false := beq_eq_false_iff_ne.mpr hk'
      have hsingle : List.lookup k' [(k, v)] = none := by
        simp [List.lookup, hb]
      rw [hsingle, if_neg hk']
      simp

/-- Dict.update resolves a key to the LAST patch entry carrying it,
falling back to the original dict. -/
theorem lookup_dictUpdate {α : Type} (patch : List (String × α)) :
    ∀ (m : List (String × α)) (k : String),
    List.lookup k (dictUpdate m patch) = (lastAssoc k patch).or (List.lookup k m) := by
  induction patch with
  | nil => intro m k; simp [dictUpdate, lastAssoc]
  | cons p rest ih =>
    intro m k
    have hstep : dictUpdate m (p :: rest) = dictUpdate (dictInsert m p.1 p.2) rest := rfl
    rw [hstep, ih, lookup_dictInsert]
    have hrev : lastAssoc k (p :: rest) =
        (lastAssoc k rest).or (if p.1 == k then some p.2 else none) := by
      unfold lastAssoc
      rw [List.reverse_cons, List.findSome?_append]
      have hsingle : List.findSome? (fun q => if q.1 == k then some q.2 else none) [p] =
          (if p.1 == k then some p.2 else none) := by
        cases hc : (p.1 == k) <;> simp [List.findSome?, hc]
      rw [hsingle]
    rw [hrev, Option.or_assoc]
    congr 1
    by_cases hk : k = p.1
    · subst hk; simp
    · have : (p.1 == k) = false := by
        simp [Ne.symm hk]
      simp [this, hk]

theorem lookup_foldl_dictUpdate (jobs : List (String × WJob)) :
    ∀ (start : List (String × String)) (k : String),
    List.lookup k (jobs.foldl (fun acc p => dictUpdate acc p.2.permissions) start) =
      (jobs.reverse.findSome? fun p => lastAssoc k p.2.permissions).or
        (List.lookup k start) := by
  induction jobs with
  | nil => intro start k; simp
  | cons j rest ih =>
    intro start k
    rw [List.foldl_cons, ih, lookup_dictUpdate]
    rw [List.reverse_cons, List.findSome?_append]
    have hsingle : List.findSome? (fun p => lastAssoc k p.2.permissions) [j] =
        lastAssoc k j.2.permissions := by
      cases hfp : lastAssoc k j.2.permissions <;> simp [List.findSome?, hfp]
    rw [hsingle, Option.or_assoc]

/-- The merged permission view resolves a key to the LAST
publish-related job that sets it, falling back to the workflow scope. -/
theorem lookup_mergedPermissions (w : Workflow) (k : String) :
    List.lookup k (mergedPermissions w) =
      ((pagesJobs w).reverse.findSome? fun p => lastAssoc k p.2.permissions).or
        (List.lookup k w.permissions) := by
  unfold mergedPermissions
  exact lookup_foldl_dictUpdate (pagesJobs w) w.permissions k

theorem required_satisfied_iff (w : Workflow) :
    (missingPermissions w = [] ∧ incorrectPermissions w = []) ↔
      ∀ p ∈ REQUIRED_PERMISSIONS, List.lookup p.1 (mergedPermissions w) = some p.2 := by
  constructor
  · rintro ⟨hm, hi⟩ p hp
    rcases hcase : List.lookup p.1 (mergedPermissions w) with _ | v
    · exact absurd ((mem_missingPermissions w p.1).mpr ⟨⟨p.2, hp⟩, hcase⟩)
        (by rw [hm]; exact List.not_mem_nil p.1)
    · by_cases hv : v = p.2
      · rw [hv]
      · exact absurd ((mem_incorrectPermissions w ⟨p.1, p.2, v⟩).mpr ⟨hp, hcase, hv⟩)
          (by rw [hi]; exact List.not_mem_nil _)
  · intro h
    constructor
    · rw [List.eq_nil_iff_forall_not_mem]
      intro k hk
      rcases (mem_missingPermissions w k).mp hk with ⟨⟨v, hv⟩, hnone⟩
      rw [h (k, v) hv] at hnone
      cases hnone
    · rw [List.eq_nil_iff_forall_not_mem]
      intro p hp
      rcases (mem_incorrectPermissions w p).mp hp with ⟨hmem, hl, hne⟩
      rw [h (p.permission, p.expected) hmem] at hl
      exact hne (Option.some.inj hl).symm

/-- Claim C10 (implicit): the permissions check builds ONE merged view
per file by overlaying the workflow-scope permissions with the
permission scope of every publish-related job in job-iteration order:
the check passes exactly when every required pair is found in that
merged view, a key is resolved to the LAST publish-related job that
sets it (a later job silently replacing an earlier conflicting value),
and consequently the check can pass although no single scope holds all
required permissions, as the concrete instances show. -/
theorem permissions_merge_semantics (t : Nat) (f : String) (w : Workflow) (k : String) :
    (∃ r, validateWorkflowPermissions t f w = [r] ∧
      (r.status = TestStatus.pass ↔
        ∀ p ∈ REQUIRED_PERMISSIONS, List.lookup p.1 (mergedPermissions w) = some p.2)) ∧
    (List.lookup k (mergedPermissions w) =
      ((pagesJobs w).reverse.findSome? fun p => lastAssoc k p.2.permissions).or
        (List.lookup k w.permissions)) ∧
    ((validateWorkflowPermissions 0 "u.yml" unionPermsWorkflow).map DiagnosticResult.status =
      [TestStatus.pass] ∧
     List.lookup "pages" unionPermsWorkflow.permissions = none ∧
     (∀ p ∈ unionPermsWorkflow.jobs, ¬∀ q ∈ REQUIRED_PERMISSIONS,
        List.lookup q.1 p.2.permissions = some q.2)) ∧
    (List.lookup "pages" (mergedPermissions conflictPermsWorkflow) = some "write" ∧
     (∃ j ∈ pagesJobs conflictPermsWorkflow,
        List.lookup "pages" j.2.permissions = some "read")) := by
  refine ⟨?_, lookup_mergedPermissions w k, ⟨by decide, by decide, by decide⟩,
    by decide, by decide⟩
  by_cases hcond : ((missingPermissions w).isEmpty && (incorrectPermissions w).isEmpty) = true
  · have hm := (Bool.and_eq_true _ _).mp hcond
    refine ⟨permsPassResult t f (mergedPermissions w), ?_, ?_⟩
    · simp [validateWorkflowPermissions, hcond]
    · constructor
      · intro _
        exact (required_satisfied_iff w).mp
          ⟨List.isEmpty_iff.mp hm.1, List.isEmpty_iff.mp hm.2⟩
      · intro _; rfl
  · refine ⟨permsFailResult t f (missingPermissions w) (incorrectPermissions w), ?_, ?_⟩
    · simp only [validateWorkflowPermissions]
      rw [if_neg hcond]
    · constructor
      · intro hst; exact absurd hst (by exact fun hx => TestStatus.noConfusion hx)
      · intro hall
        rcases (required_satisfied_iff w).mpr hall with ⟨hm2, hi2⟩
        exact absurd (by rw [hm2, hi2]; rfl) hcond

/-- Witness for C9 at a concrete registry. -/
theorem session_results_append_only_witness :
    ∃ final, runDiagnosticsOrch (some sampleSession) mixedCompRuns 7 = Except.ok final ∧
      final.end_time = some 7 := by
  obtain ⟨final, h1, -, -, h4⟩ := session_results_append_only sampleSession mixedCompRuns 7
  exact ⟨final, h1, h4⟩

/-- Witness for C10 at the conflicting-permissions workflow. -/
theorem permissions_merge_semantics_witness :
    List.lookup "pages" (mergedPermissions conflictPermsWorkflow) =
      ((pagesJobs conflictPermsWorkflow).reverse.findSome? fun p =>
        lastAssoc "pages" p.2.permissions).or
        (List.lookup "pages" conflictPermsWorkflow.permissions) :=
  (permissions_merge_semantics 0 "c.yml" conflictPermsWorkflow "pages").2.1

theorem triples_checkDirectory (t t2 : Nat) (fs : RepoFS) :
    (checkWorkflowsDirectory t fs).map resultTriple =
      (checkWorkflowsDirectory t2 fs).map resultTriple := by
  cases hd : fs.workflowsDirExists <;>
    simp [checkWorkflowsDirectory, hd, resultTriple, dirFoundResult, dirMissingResult]

theorem discover_state_eq (t t2 : Nat) (fs : RepoFS) (st : InspectorState) :
    (discoverWorkflowFiles t fs st).1 = (discoverWorkflowFiles t2 fs st).1 := by
  unfold discoverWorkflowFiles
  cases fs.listing with
  | error e => rfl
  | ok files =>
    by_cases he : (st.workflow_files ++ files).isEmpty = true <;> simp [he]

theorem triples_discover (t t2 : Nat) (fs : RepoFS) (st : InspectorState) :
    (discoverWorkflowFiles t fs st).2.map resultTriple =
      (discoverWorkflowFiles t2 fs st).2.map resultTriple := by
  unfold discoverWorkflowFiles
  cases fs.listing with
  | error e => simp [resultTriple, discoveryErrorResult]
  | ok files =>
    by_cases he : (st.workflow_files ++ files).isEmpty = true <;>
      simp [he, resultTriple, noFilesResult, filesFoundResult]

theorem parseAux_state_eq (t t2 : Nat) (path : String) (files : List WFile) :
    ∀ parsed, (parseWorkflowFilesAux t path files parsed).1 =
      (parseWorkflowFilesAux t2 path files parsed).1 := by
  induction files with
  | nil => intro parsed; rfl
  | cons f rest ih =>
    intro parsed
    rcases f with ⟨fname, fc⟩
    cases fc <;> simp [parseWorkflowFilesAux, ih]

theorem triples_parseAux (t t2 : Nat) (path : String) (files : List WFile) :
    ∀ parsed, (parseWorkflowFilesAux t path files parsed).2.map resultTriple =
      (parseWorkflowFilesAux t2 path files parsed).2.map resultTriple := by
  induction files with
  | nil => intro parsed; rfl
  | cons f rest ih =>
    intro parsed
    rcases f with ⟨fname, fc⟩
    cases fc <;>
      simp [parseWorkflowFilesAux, ih, resultTriple, parseOkResult, parseEmptyResult,
        parseYamlErrorResult, parseReadErrorResult]

theorem triples_assess (t t2 : Nat) (st : InspectorState) :
    (assessOverallConfiguration t st).map resultTriple =
      (assessOverallConfiguration t2 st).map resultTriple := by
  unfold assessOverallConfiguration
  by_cases h1 : st.parsed_workflows.isEmpty = true
  · simp [h1, resultTriple]
  · by_cases h2 : (st.parsed_workflows.filter fun p => workflowDeploysPages p.2).length = 0 <;>
      simp [h1, h2, resultTriple]

theorem triples_validatePermissions (t t2 : Nat) (f : String) (w : Workflow) :
    (validateWorkflowPermissions t f w).map resultTriple =
      (validateWorkflowPermissions t2 f w).map resultTriple := by
  unfold validateWorkflowPermissions
  by_cases hc : ((missingPermissions w).isEmpty && (incorrectPermissions w).isEmpty) = true <;>
    simp [hc, resultTriple, permsPassResult, permsFailResult]

theorem exTriples_validateTriggers (t t2 : Nat) (f : String) (w : Workflow) :
    exTriples (validateWorkflowTriggers t f w) =
      exTriples (validateWorkflowTriggers t2 f w) := by
  unfold validateWorkflowTriggers
  cases hn : normalizeTriggers (effectiveTriggers w) with
  | none => rfl
  | some trigs =>
    by_cases hi : (triggerIssues trigs).isEmpty = true <;>
      simp [hi, exTriples, resultTriple, triggersPassResult, triggersFailResult]

theorem triple_jobStepsResult (t t2 : Nat) (f jn : String) (j : WJob) :
    resultTriple (jobStepsResult t f jn j) = resultTriple (jobStepsResult t2 f jn j) := by
  unfold jobStepsResult
  by_cases hc : ((outdatedActions (usedActions j.steps)).isEmpty &&
      (missingEssentialActions (usedActions j.steps)).isEmpty) = true <;>
    simp [hc, resultTriple]

theorem triples_validateSteps (t t2 : Nat) (f : String) (w : Workflow) :
    (validateWorkflowSteps t f w).map resultTriple =
      (validateWorkflowSteps t2 f w).map resultTriple := by
  unfold validateWorkflowSteps
  rw [List.map_map, List.map_map]
  exact List.map_congr_left fun p _ => triple_jobStepsResult t t2 f p.1 p.2

theorem triples_validateDeployment (t t2 : Nat) (f : String) (w : Workflow) :
    (validatePagesDeployment t f w).map resultTriple =
      (validatePagesDeployment t2 f w).map resultTriple := by
  unfold validatePagesDeployment
  by_cases h1 : hasPagesDeployment w.jobs = true
  · by_cases h2 : (deploymentIssues w.jobs).isEmpty = true <;>
      simp [h1, h2, resultTriple, deployNoneResult, deployIncompleteResult,
        deployCompleteResult]
  · have h1f : hasPagesDeployment w.jobs = false := Bool.eq_false_iff.mpr h1
    simp [h1f, resultTriple, deployNoneResult]

theorem exTriples_validateFiles (t t2 : Nat) (l : List (String × Workflow)) :
    exTriples (validateFiles t l) = exTriples (validateFiles t2 l) := by
  induction l with
  | nil => rfl
  | cons p rest ih =>
    rcases p with ⟨f, w⟩
    have htr := exTriples_validateTriggers t t2 f w
    unfold validateFiles
    rcases h1 : validateWorkflowTriggers t f w with e1 | rs1 <;>
      rcases h2 : validateWorkflowTriggers t2 f w with e2 | rs2 <;>
      rw [h1, h2] at htr <;> simp only [exTriples, Except.error.injEq, Except.ok.injEq] at htr
    · rw [htr]
    · cases htr
    · cases htr
    · rcases hr1 : validateFiles t rest with er1 | rrs1 <;>
        rcases hr2 : validateFiles t2 rest with er2 | rrs2 <;>
        rw [hr1, hr2] at ih <;>
        simp only [exTriples, Except.error.injEq, Except.ok.injEq] at ih
      · rw [ih]
      · cases ih
      · cases ih
      · simp only [exTriples, Except.ok.injEq]
        rw [List.map_append, List.map_append, List.map_append, List.map_append,
          List.map_append, List.map_append, List.map_append, List.map_append]
        rw [triples_validatePermissions t t2 f w, htr, triples_validateSteps t t2 f w,
          triples_validateDeployment t t2 f w, ih]

theorem parse_state_eq (t t2 : Nat) (fs : RepoFS) (st : InspectorState) :
    (parseWorkflowFiles t fs.workflowsPath (discoverWorkflowFiles t fs st).1).1 =
      (parseWorkflowFiles t2 fs.workflowsPath (discoverWorkflowFiles t2 fs st).1).1 := by
  rw [discover_state_eq t t2 fs st]
  unfold parseWorkflowFiles
  simp [parseAux_state_eq t t2]

theorem run_state_eq (t t2 : Nat) (fs : RepoFS) (st : InspectorState) :
    (workflowRunDiagnostics t fs st).1 = (workflowRunDiagnostics t2 fs st).1 := by
  unfold workflowRunDiagnostics
  cases hd : fs.workflowsDirExists
  · simp [hd]
  · simp only [hd, if_true]
    have hstate := parse_state_eq t t2 fs st
    split <;> split <;> simpa using hstate

theorem exTriples_run (t t2 : Nat) (fs : RepoFS) (st : InspectorState) :
    exTriples (workflowRunDiagnostics t fs st).2 =
      exTriples (workflowRunDiagnostics t2 fs st).2 := by
  unfold workflowRunDiagnostics
  cases hd : fs.workflowsDirExists
  · simp only [hd, Bool.false_eq_true, if_false, exTriples]
    exact congrArg Except.ok (triples_checkDirectory t t2 fs)
  · simp only [hd, if_true]
    have hdisc := discover_state_eq t t2 fs st
    have hstate := parse_state_eq t t2 fs st
    have hparsed : ((parseWorkflowFiles t2 fs.workflowsPath
        (discoverWorkflowFiles t2 fs st).1).1).parsed_workflows =
        ((parseWorkflowFiles t fs.workflowsPath
        (discoverWorkflowFiles t fs st).1).1).parsed_workflows := by
      rw [hstate]
    rw [hparsed]
    have hval := exTriples_validateFiles t t2
      ((parseWorkflowFiles t fs.workflowsPath
        (discoverWorkflowFiles t fs st).1).1).parsed_workflows
    rcases hv1 : validateFiles t ((parseWorkflowFiles t fs.workflowsPath
        (discoverWorkflowFiles t fs st).1).1).parsed_workflows with e1 | rs1 <;>
      rcases hv2 : validateFiles t2 ((parseWorkflowFiles t fs.workflowsPath
        (discoverWorkflowFiles t fs st).1).1).parsed_workflows with e2 | rs2 <;>
      rw [hv1, hv2] at hval <;>
      simp only [exTriples, Except.error.injEq, Except.ok.injEq] at hval
    · simp only [exTriples, Except.error.injEq]
      exact hval
    · cases hval
    · cases hval
    · simp only [exTriples, Except.ok.injEq]
      rw [List.map_append, List.map_append, List.map_append, List.map_append,
        List.map_append, List.map_append, List.map_append, List.map_append]
      rw [triples_checkDirectory t t2 fs, triples_discover t t2 fs st, hval]
      rw [show (parseWorkflowFiles t fs.workflowsPath (discoverWorkflowFiles t fs st).1).2 =
        (parseWorkflowFilesAux t fs.workflowsPath
          (discoverWorkflowFiles t fs st).1.workflow_files
          (discoverWorkflowFiles t fs st).1.parsed_workflows).2 from rfl]
      rw [show (parseWorkflowFiles t2 fs.workflowsPath (discoverWorkflowFiles t2 fs st).1).2 =
        (parseWorkflowFilesAux t2 fs.workflowsPath
          (discoverWorkflowFiles t2 fs st).1.workflow_files
          (discoverWorkflowFiles t2 fs st).1.parsed_workflows).2 from rfl]
      rw [← hdisc, triples_parseAux t t2]
      have hP : (parseWorkflowFiles t2 fs.workflowsPath (discoverWorkflowFiles t fs st).1).1 =
          (parseWorkflowFiles t fs.workflowsPath (discoverWorkflowFiles t fs st).1).1 := by
        unfold parseWorkflowFiles
        simp [parseAux_state_eq t2 t]
      rw [hP, triples_assess t t2]

/-- Counterexample to C7 as stated: against a one-file tree, a second
run of the same engine instance does NOT reproduce the multiset of
(check name, status, severity) triples of the first run — discovery
extends the persistent file list without clearing it, so the single
file is parsed twice in the second run and its parse triple is
duplicated (8 results become 9). -/
theorem engine_rerun_not_idempotent_cex :
    exceptIsOk firstEngineRun.2 = true ∧ exceptIsOk secondEngineRun.2 = true ∧
    (exceptResults firstEngineRun.2).length = 8 ∧
    (exceptResults secondEngineRun.2).length = 9 ∧
    ¬ List.Perm ((exceptResults firstEngineRun.2).map resultTriple)
        ((exceptResults secondEngineRun.2).map resultTriple) := by
  refine ⟨rfl, rfl, by decide, by decide, ?_⟩
  intro h
  have hlen := h.length_eq
  rw [List.length_map, List.length_map] at hlen
  have h1 : (exceptResults firstEngineRun.2).length = 8 := by decide
  have h2 : (exceptResults secondEngineRun.2).length = 9 := by decide
  rw [h1, h2] at hlen
  cases hlen

theorem run_state_unchanged (t : Nat) (fs : RepoFS) (st : InspectorState)
    (hwf : st.workflow_files = [])
    (hcase : fs.workflowsDirExists = false ∨ fs.listing = Except.ok [] ∨
      ∃ m, fs.listing = Except.error m) :
    (workflowRunDiagnostics t fs st).1 = st := by
  have hparse : ∀ st2 : InspectorState, st2.workflow_files = [] →
      (parseWorkflowFiles t fs.workflowsPath st2).1 = st2 := by
    intro st2 h2
    unfold parseWorkflowFiles
    rcases st2 with ⟨wf, pw⟩
    change wf = [] at h2
    subst h2
    simp [parseWorkflowFilesAux]
  rcases hcase with h | h | ⟨m, h⟩
  · simp [workflowRunDiagnostics, h]
  · cases hd : fs.workflowsDirExists
    · simp [workflowRunDiagnostics, hd]
    · have hdfst : (discoverWorkflowFiles t fs st).1 = st := by
        unfold discoverWorkflowFiles
        rw [h]
        have hst2 : ({ st with workflow_files := st.workflow_files ++ ([] : List WFile) } :
            InspectorState) = st := by
          cases st
          simp
        dsimp only
        split <;> exact hst2
      unfold workflowRunDiagnostics
      simp only [hd, if_true]
      split <;> simp_all [hdfst, hparse st hwf]
  · cases hd : fs.workflowsDirExists
    · simp [workflowRunDiagnostics, hd]
    · have hdfst : (discoverWorkflowFiles t fs st).1 = st := by
        unfold discoverWorkflowFiles
        rw [h]
      unfold workflowRunDiagnostics
      simp only [hd, if_true]
      split <;> simp_all [hdfst, hparse st hwf]

/-- Amended C7: the triples of an engine run are deterministic in the
tree and the instance state and independent of wall-clock timestamps;
and re-running the same instance reproduces the triples whenever the
first run discovered no workflow files (directory absent, no matching
files, or discovery failure). When at least one file is discovered,
same-instance idempotence fails, because the discovered-file list
persists across runs and the second run re-parses every file (see the
counterexample). -/
theorem engine_determinism_and_empty_idempotence :
    (∀ (t t2 : Nat) (fs : RepoFS) (st : InspectorState),
      (workflowRunDiagnostics t fs st).1 = (workflowRunDiagnostics t2 fs st).1 ∧
      exTriples (workflowRunDiagnostics t fs st).2 =
        exTriples (workflowRunDiagnostics t2 fs st).2) ∧
    (∀ (t t2 : Nat) (fs : RepoFS) (st : InspectorState),
      st.workflow_files = [] →
      (fs.workflowsDirExists = false ∨ fs.listing = Except.ok [] ∨
        ∃ m, fs.listing = Except.error m) →
      exTriples (workflowRunDiagnostics t2 fs (workflowRunDiagnostics t fs st).1).2 =
        exTriples (workflowRunDiagnostics t fs st).2) := by
  refine ⟨fun t t2 fs st => ⟨run_state_eq t t2 fs st, exTriples_run t t2 fs st⟩, ?_⟩
  intro t t2 fs st hwf hcase
  rw [run_state_unchanged t fs st hwf hcase]
  exact exTriples_run t2 t fs st

/-- Witness for the amended C7 at a directory-less repository. -/
theorem engine_determinism_and_empty_idempotence_witness :
    exTriples (workflowRunDiagnostics 1 noDirRepo
      (workflowRunDiagnostics 0 noDirRepo freshInspector).1).2 =
      exTriples (workflowRunDiagnostics 0 noDirRepo freshInspector).2 :=
  engine_determinism_and_empty_idempotence.2 0 1 noDirRepo freshInspector rfl (Or.inl rfl)
